import Mathlib

/-! # The stream-socket layer of sdk-dslink-c (`sdk/src/socket.c`)

A shallow embedding of `socket.c`.  The C functions become Lean functions that
pass a `World` explicitly: the allocator, the socket records that live in
allocated storage, the state of the mbedtls contexts as far as the socket layer
can observe it, `errno`, and a trace of every call made to `malloc`, `free` and
mbedtls.  What mbedtls and the allocator answer is not decided by this
repository; those answers are the fields of `Env`.  A function yields `none`
where C gives no defined result (a dereference of storage that holds no socket
record, `free` of a block that is not allocated, an mbedtls call on a context
that was never initialised) and where the handshake loop is cut off by its
step budget.
-/

namespace DSLink

/-- A machine address; `0` is the null pointer. -/
abbrev Ptr := Nat

/-- The mbedtls context types the socket layer owns:
`mbedtls_net_context`, `mbedtls_entropy_context`, `mbedtls_ctr_drbg_context`,
`mbedtls_ssl_context`, `mbedtls_ssl_config`. -/
inductive Ctx where
  | net
  | entropy
  | ctr_drbg
  | ssl
  | ssl_config
deriving DecidableEq, Repr

/-- One call that leaves `socket.c`.  `ctx_init k p` stands for
`mbedtls_<k>_init(p)` and `ctx_free k p` for `mbedtls_<k>_free(p)`. -/
inductive Event where
  | malloc (ret : Ptr)
  | free (p : Ptr)
  | ctx_init (k : Ctx) (p : Ptr)
  | ctx_free (k : Ctx) (p : Ptr)
  | ctr_drbg_seed (drbg entropy : Ptr)
  | net_connect (fd : Ptr) (address : String) (port : Nat)
  | ssl_config_defaults (conf : Ptr)
  | ssl_conf_authmode (conf : Ptr)
  | ssl_conf_rng (conf drbg : Ptr)
  | ssl_setup (ssl conf : Ptr)
  | ssl_set_hostname (ssl : Ptr) (hostname : String)
  | ssl_set_bio (ssl fd : Ptr)
  | ssl_handshake (ssl : Ptr)
  | ssl_conf_read_timeout (conf : Ptr) (timeout : Nat)
  | ssl_read (ssl : Ptr) (len : Nat)
  | net_recv (fd : Ptr) (len : Nat)
  | net_recv_timeout (fd : Ptr) (len : Nat) (timeout : Nat)
  | ssl_write (ssl : Ptr) (len : Nat)
  | net_send (fd : Ptr) (len : Nat)
  | ssl_close_notify (ssl : Ptr)
deriving DecidableEq, Repr

/-- The contents of a block that holds a socket record: `struct Socket` or
`struct SslSocket`.  Both start with `secure` and `socket_fd`. -/
inductive Obj where
  | Socket (secure : Nat) (socket_fd : Ptr)
  | SslSocket (secure : Nat) (socket_fd entropy drbg ssl conf : Ptr)
deriving DecidableEq, Repr

/-- The field `secure`, readable through a `Socket *` on either record. -/
def Obj.secure : Obj → Nat
  | .Socket secure _ => secure
  | .SslSocket secure _ _ _ _ _ => secure

/-- The field `socket_fd`, readable through a `Socket *` on either record. -/
def Obj.socket_fd : Obj → Ptr
  | .Socket _ fd => fd
  | .SslSocket _ fd _ _ _ _ => fd

/-- The program state the socket layer can observe. -/
structure World where
  /-- the last address `malloc` handed out; `malloc` hands out `brk + 1` next, so
  no address is handed out twice -/
  brk : Nat
  /-- number of `malloc` calls made so far -/
  mallocs : Nat
  /-- the blocks that are allocated -/
  live : List Ptr
  /-- socket records stored in allocated blocks (first entry for an address wins) -/
  socks : List (Ptr × Obj)
  /-- contexts an `mbedtls_*_init` has prepared, in storage that is still allocated -/
  ready : List (Ctx × Ptr)
  /-- the field `read_timeout` of the `mbedtls_ssl_config` objects (first entry wins) -/
  read_timeout : List (Ptr × Nat)
  /-- number of `mbedtls_ssl_handshake` steps taken so far -/
  handshakes : Nat
  errno : Int
  /-- every call to `malloc`, `free` and mbedtls, oldest first -/
  trace : List Event
deriving DecidableEq, Repr

/-- The answers of the allocator, of mbedtls and of the network: what the
calls that leave `socket.c` return.  A connect makes each of its set-up calls
once, so one answer per call is kept.  The handshake answers are indexed by
the number of handshake steps taken before, the allocator's by the number of
earlier `malloc` calls.  The transfer answers may differ from call to call:
they are indexed by the length of the trace at the time of the call, and by
the length (and timeout) argument. -/
structure Env where
  /-- whether the `n`-th call of `malloc` (counted from 0) succeeds -/
  malloc_ok : Nat → Bool
  ctr_drbg_seed : Int
  net_connect : Int
  ssl_config_defaults : Int
  ssl_setup : Int
  ssl_set_hostname : Int
  /-- result of the `n`-th handshake step (counted from 0) -/
  ssl_handshake : Nat → Int
  ssl_read : Nat → Nat → Int
  net_recv : Nat → Nat → Int
  net_recv_timeout : Nat → Nat → Nat → Int
  ssl_write : Nat → Nat → Int
  net_send : Nat → Nat → Int

/-- The constants of `dslink/err.h` that `socket.c` uses.  The header is not
among the sources, so the values are parameters of the model. -/
structure ErrH where
  DSLINK_ALLOC_ERR : Int
  DSLINK_CRYPT_ENTROPY_SEED_ERR : Int
  DSLINK_SOCK_CONNECT_ERR : Int
  DSLINK_SOCK_SSL_CONFIG_ERR : Int
  DSLINK_SOCK_SSL_SETUP_ERR : Int
  DSLINK_SOCK_SSL_HOSTNAME_SET_ERR : Int
  DSLINK_SOCK_SSL_HANDSHAKE_ERR : Int
  DSLINK_SOCK_READ_ERR : Int
  DSLINK_SOCK_WRITE_ERR : Int
deriving DecidableEq, Repr

/-- `MBEDTLS_ERR_SSL_WANT_READ`, `-0x6900` in `mbedtls/ssl.h`. -/
def MBEDTLS_ERR_SSL_WANT_READ : Int := -26880

/-- `MBEDTLS_ERR_SSL_WANT_WRITE`, `-0x6880` in `mbedtls/ssl.h`. -/
def MBEDTLS_ERR_SSL_WANT_WRITE : Int := -26752

/-! ## The allocator and mbedtls, as seen from `socket.c` -/

/-- Append one call to the trace. -/
def World.log (w : World) (e : Event) : World :=
  { w with trace := w.trace ++ [e] }

/-- `malloc`: a fresh non-null block, or `NULL` when the allocator refuses. -/
def malloc (env : Env) (w : World) : Ptr × World :=
  if env.malloc_ok w.mallocs then
    (w.brk + 1,
      { w with brk := w.brk + 1, mallocs := w.mallocs + 1, live := (w.brk + 1) :: w.live,
               trace := w.trace ++ [Event.malloc (w.brk + 1)] })
  else
    (0, { w with mallocs := w.mallocs + 1, trace := w.trace ++ [Event.malloc 0] })

/-- `free`: nothing happens on `NULL`; an allocated block is released together
with whatever it held; anything else is undefined. -/
def free (w : World) (p : Ptr) : Option World :=
  if p = 0 then some (w.log (Event.free 0))
  else if p ∈ w.live then
    some { w with live := w.live.erase p,
                  socks := w.socks.filter (fun e => e.1 ≠ p),
                  ready := w.ready.filter (fun e => e.2 ≠ p),
                  trace := w.trace ++ [Event.free p] }
  else none

/-- Read the socket record a `Socket *` points to. -/
def World.deref (w : World) (p : Ptr) : Option Obj :=
  w.socks.lookup p

/-- Write a socket record into a block. -/
def World.store (w : World) (p : Ptr) (o : Obj) : World :=
  { w with socks := (p, o) :: w.socks }

/-- An `mbedtls_*_init(p)`: defined on allocated storage, leaves a prepared context. -/
def ctxInit (w : World) (k : Ctx) (p : Ptr) : Option World :=
  if p ∈ w.live then
    some { w with ready := (k, p) :: w.ready, trace := w.trace ++ [Event.ctx_init k p] }
  else none

/-- Any other mbedtls call on the context `p` of kind `k`: defined only when
the context was prepared by its init routine. -/
def ctxUse (w : World) (k : Ctx) (p : Ptr) (e : Event) : Option World :=
  if (k, p) ∈ w.ready then some (w.log e) else none

def mbedtls_net_init (w : World) (p : Ptr) : Option World := ctxInit w Ctx.net p
def mbedtls_entropy_init (w : World) (p : Ptr) : Option World := ctxInit w Ctx.entropy p
def mbedtls_ctr_drbg_init (w : World) (p : Ptr) : Option World := ctxInit w Ctx.ctr_drbg p
def mbedtls_ssl_init (w : World) (p : Ptr) : Option World := ctxInit w Ctx.ssl p
def mbedtls_ssl_config_init (w : World) (p : Ptr) : Option World := ctxInit w Ctx.ssl_config p

def mbedtls_net_free (w : World) (p : Ptr) : Option World :=
  ctxUse w Ctx.net p (Event.ctx_free Ctx.net p)
def mbedtls_entropy_free (w : World) (p : Ptr) : Option World :=
  ctxUse w Ctx.entropy p (Event.ctx_free Ctx.entropy p)
def mbedtls_ctr_drbg_free (w : World) (p : Ptr) : Option World :=
  ctxUse w Ctx.ctr_drbg p (Event.ctx_free Ctx.ctr_drbg p)
def mbedtls_ssl_free (w : World) (p : Ptr) : Option World :=
  ctxUse w Ctx.ssl p (Event.ctx_free Ctx.ssl p)
def mbedtls_ssl_config_free (w : World) (p : Ptr) : Option World :=
  ctxUse w Ctx.ssl_config p (Event.ctx_free Ctx.ssl_config p)

/-- `mbedtls_ctr_drbg_seed(drbg, mbedtls_entropy_func, entropy, NULL, 0)`. -/
def mbedtls_ctr_drbg_seed (env : Env) (w : World) (drbg entropy : Ptr) : Option (Int × World) := do
  let w ← ctxUse w Ctx.entropy entropy (Event.ctr_drbg_seed drbg entropy)
  if (Ctx.ctr_drbg, drbg) ∈ w.ready then some (env.ctr_drbg_seed, w) else none

/-- `mbedtls_net_connect(fd, address, num, MBEDTLS_NET_PROTO_TCP)`; `num` is the
port in decimal. -/
def mbedtls_net_connect (env : Env) (w : World) (fd : Ptr) (address : String) (port : Nat) :
    Option (Int × World) := do
  let w ← ctxUse w Ctx.net fd (Event.net_connect fd address port)
  some (env.net_connect, w)

/-- `mbedtls_ssl_config_defaults(conf, IS_CLIENT, TRANSPORT_STREAM, PRESET_DEFAULT)`. -/
def mbedtls_ssl_config_defaults (env : Env) (w : World) (conf : Ptr) : Option (Int × World) := do
  let w ← ctxUse w Ctx.ssl_config conf (Event.ssl_config_defaults conf)
  some (env.ssl_config_defaults, w)

/-- `mbedtls_ssl_conf_authmode(conf, MBEDTLS_SSL_VERIFY_NONE)`. -/
def mbedtls_ssl_conf_authmode (w : World) (conf : Ptr) : Option World :=
  ctxUse w Ctx.ssl_config conf (Event.ssl_conf_authmode conf)

/-- `mbedtls_ssl_conf_rng(conf, mbedtls_ctr_drbg_random, drbg)`. -/
def mbedtls_ssl_conf_rng (w : World) (conf drbg : Ptr) : Option World :=
  ctxUse w Ctx.ssl_config conf (Event.ssl_conf_rng conf drbg)

/-- `mbedtls_ssl_setup(ssl, conf)`. -/
def mbedtls_ssl_setup (env : Env) (w : World) (ssl conf : Ptr) : Option (Int × World) := do
  let w ← ctxUse w Ctx.ssl ssl (Event.ssl_setup ssl conf)
  if (Ctx.ssl_config, conf) ∈ w.ready then some (env.ssl_setup, w) else none

/-- `mbedtls_ssl_set_hostname(ssl, hostname)`. -/
def mbedtls_ssl_set_hostname (env : Env) (w : World) (ssl : Ptr) (hostname : String) :
    Option (Int × World) := do
  let w ← ctxUse w Ctx.ssl ssl (Event.ssl_set_hostname ssl hostname)
  some (env.ssl_set_hostname, w)

/-- `mbedtls_ssl_set_bio(ssl, fd, mbedtls_net_send, mbedtls_net_recv, NULL)`. -/
def mbedtls_ssl_set_bio (w : World) (ssl fd : Ptr) : Option World :=
  ctxUse w Ctx.ssl ssl (Event.ssl_set_bio ssl fd)

/-- `mbedtls_ssl_handshake(ssl)`: one more step of the handshake. -/
def mbedtls_ssl_handshake (env : Env) (w : World) (ssl : Ptr) : Option (Int × World) := do
  let w1 ← ctxUse w Ctx.ssl ssl (Event.ssl_handshake ssl)
  some (env.ssl_handshake w.handshakes, { w1 with handshakes := w.handshakes + 1 })

/-- `mbedtls_ssl_conf_read_timeout(conf, timeout)`: stores `timeout` in the
configuration. -/
def mbedtls_ssl_conf_read_timeout (w : World) (conf : Ptr) (timeout : Nat) : Option World := do
  let w ← ctxUse w Ctx.ssl_config conf (Event.ssl_conf_read_timeout conf timeout)
  some { w with read_timeout := (conf, timeout) :: w.read_timeout }

def mbedtls_ssl_read (env : Env) (w : World) (ssl : Ptr) (len : Nat) : Option (Int × World) := do
  let w1 ← ctxUse w Ctx.ssl ssl (Event.ssl_read ssl len)
  some (env.ssl_read w.trace.length len, w1)

def mbedtls_net_recv (env : Env) (w : World) (fd : Ptr) (len : Nat) : Option (Int × World) := do
  let w1 ← ctxUse w Ctx.net fd (Event.net_recv fd len)
  some (env.net_recv w.trace.length len, w1)

def mbedtls_net_recv_timeout (env : Env) (w : World) (fd : Ptr) (len timeout : Nat) :
    Option (Int × World) := do
  let w1 ← ctxUse w Ctx.net fd (Event.net_recv_timeout fd len timeout)
  some (env.net_recv_timeout w.trace.length len timeout, w1)

def mbedtls_ssl_write (env : Env) (w : World) (ssl : Ptr) (len : Nat) : Option (Int × World) := do
  let w1 ← ctxUse w Ctx.ssl ssl (Event.ssl_write ssl len)
  some (env.ssl_write w.trace.length len, w1)

def mbedtls_net_send (env : Env) (w : World) (fd : Ptr) (len : Nat) : Option (Int × World) := do
  let w1 ← ctxUse w Ctx.net fd (Event.net_send fd len)
  some (env.net_send w.trace.length len, w1)

/-- `mbedtls_ssl_close_notify(ssl)`; the caller ignores the result. -/
def mbedtls_ssl_close_notify (w : World) (ssl : Ptr) : Option World :=
  ctxUse w Ctx.ssl ssl (Event.ssl_close_notify ssl)

/-- Modelled from the spec: the macro `DSLINK_CHECKED_EXEC(func, val)` of
`dslink/utils.h`, which is not among the sources.  The spec has every
sub-resource that was allocated released on a failed construction; the macro
calls `func(val)` when `val` is non-null and does nothing otherwise. -/
def DSLINK_CHECKED_EXEC (func : World → Ptr → Option World) (w : World) (val : Ptr) :
    Option World :=
  if val ≠ 0 then func w val else some w

/-! ## `socket.c` -/

/-- `dslink_socket_init`: allocate the record and its sub-resources.  Returns
the address of the record, or `0` (`NULL`) when an allocation failed.  The
record is written once the five sub-resource addresses are known, which is
where the C code has finished assigning its fields. -/
def dslink_socket_init (env : Env) (w : World) (secure : Nat) : Option (Ptr × World) :=
  if secure ≠ 0 then
    let (s, w) := malloc env w
    if s = 0 then some (0, w)
    else
      let (socket_fd, w) := malloc env w
      let (entropy, w) := malloc env w
      let (drbg, w) := malloc env w
      let (ssl, w) := malloc env w
      let (conf, w) := malloc env w
      let w := w.store s (Obj.SslSocket 1 socket_fd entropy drbg ssl conf)
      if ¬ (socket_fd ≠ 0 ∧ entropy ≠ 0 ∧ drbg ≠ 0 ∧ ssl ≠ 0 ∧ conf ≠ 0) then do
        let w ← DSLINK_CHECKED_EXEC free w socket_fd
        let w ← DSLINK_CHECKED_EXEC free w entropy
        let w ← DSLINK_CHECKED_EXEC free w drbg
        let w ← DSLINK_CHECKED_EXEC free w ssl
        let w ← DSLINK_CHECKED_EXEC free w conf
        let w ← free w s
        some (0, w)
      else do
        let w ← mbedtls_net_init w socket_fd
        let w ← mbedtls_entropy_init w entropy
        let w ← mbedtls_ctr_drbg_init w drbg
        let w ← mbedtls_ssl_init w ssl
        let w ← mbedtls_ssl_config_init w conf
        some (s, w)
  else
    let (s, w) := malloc env w
    if s = 0 then some (0, w)
    else
      let (socket_fd, w) := malloc env w
      let w := w.store s (Obj.Socket 0 socket_fd)
      if socket_fd = 0 then do
        let w ← free w s
        some (0, w)
      else some (s, w)

/-- The handshake loop of `dslink_socket_connect_secure`:
`while ((stat = mbedtls_ssl_handshake(ssl)) != 0) { ... }`.
The loop has no bound of its own; `fuel` bounds the number of steps the model
follows, and `none` is returned when the budget is used up. -/
def handshake_loop (env : Env) (err : ErrH) (ssl : Ptr) : Nat → World → Option (Int × World)
  | 0, _ => none
  | fuel + 1, w => do
    let (stat, w) ← mbedtls_ssl_handshake env w ssl
    if stat ≠ 0 then
      if stat ≠ MBEDTLS_ERR_SSL_WANT_READ ∧ stat ≠ MBEDTLS_ERR_SSL_WANT_WRITE then
        some (err.DSLINK_SOCK_SSL_HANDSHAKE_ERR, { w with errno := stat })
      else handshake_loop env err ssl fuel w
    else some (0, w)

/-- `dslink_socket_connect_secure`.  `sock` is the `SslSocket *` the caller
obtained by casting; on a plain record the fields it reads do not exist.
`port` is the `unsigned short` that the C code prints into `num[6]` in
decimal, which fits; `fuel` is the step budget of the handshake loop. -/
def dslink_socket_connect_secure (env : Env) (err : ErrH) (fuel : Nat) (w : World)
    (sock : Ptr) (address : String) (port : Nat) : Option (Int × World) := do
  match ← w.deref sock with
  | Obj.Socket _ _ => none
  | Obj.SslSocket _ socket_fd entropy drbg ssl conf =>
    let (r, w) ← mbedtls_ctr_drbg_seed env w drbg entropy
    let w := { w with errno := r }
    if r ≠ 0 then some (err.DSLINK_CRYPT_ENTROPY_SEED_ERR, w)
    else
      let (r, w) ← mbedtls_net_connect env w socket_fd address port
      let w := { w with errno := r }
      if r ≠ 0 then some (err.DSLINK_SOCK_CONNECT_ERR, w)
      else
        let (r, w) ← mbedtls_ssl_config_defaults env w conf
        let w := { w with errno := r }
        if r ≠ 0 then some (err.DSLINK_SOCK_SSL_CONFIG_ERR, w)
        else
          let w ← mbedtls_ssl_conf_authmode w conf
          let w ← mbedtls_ssl_conf_rng w conf drbg
          let (r, w) ← mbedtls_ssl_setup env w ssl conf
          let w := { w with errno := r }
          if r ≠ 0 then some (err.DSLINK_SOCK_SSL_SETUP_ERR, w)
          else
            let (r, w) ← mbedtls_ssl_set_hostname env w ssl "_"
            let w := { w with errno := r }
            if r ≠ 0 then some (err.DSLINK_SOCK_SSL_HOSTNAME_SET_ERR, w)
            else
              let w ← mbedtls_ssl_set_bio w ssl socket_fd
              handshake_loop env err ssl fuel w

/-- `dslink_socket_connect_insecure`. -/
def dslink_socket_connect_insecure (env : Env) (err : ErrH) (w : World)
    (sock : Ptr) (address : String) (port : Nat) : Option (Int × World) := do
  let o ← w.deref sock
  let w ← mbedtls_net_init w o.socket_fd
  let (r, w) ← mbedtls_net_connect env w o.socket_fd address port
  let w := { w with errno := r }
  if r ≠ 0 then some (err.DSLINK_SOCK_CONNECT_ERR, w)
  else some (0, w)

/-- `dslink_socket_connect`; the second component of the result is what the
call stored in `*sock`.  `secure` is the `uint_fast8_t` flag, any non-zero
value asking for TLS. -/
def dslink_socket_connect (env : Env) (err : ErrH) (fuel : Nat) (w : World)
    (address : String) (port : Nat) (secure : Nat) : Option (Int × Ptr × World) := do
  let (sock, w) ← dslink_socket_init env w secure
  if sock = 0 then some (err.DSLINK_ALLOC_ERR, sock, w)
  else if secure ≠ 0 then do
    let (r, w) ← dslink_socket_connect_secure env err fuel w sock address port
    some (r, sock, w)
  else do
    let (r, w) ← dslink_socket_connect_insecure env err w sock address port
    some (r, sock, w)

/-- `dslink_socket_read`. -/
def dslink_socket_read (env : Env) (err : ErrH) (w : World) (sock : Ptr) (len : Nat) :
    Option (Int × World) := do
  let o ← w.deref sock
  let (r, w) ←
    if o.secure ≠ 0 then
      match o with
      | Obj.SslSocket _ _ _ _ ssl _ => mbedtls_ssl_read env w ssl len
      | Obj.Socket _ _ => none
    else mbedtls_net_recv env w o.socket_fd len
  if r < 0 then some (err.DSLINK_SOCK_READ_ERR, { w with errno := r })
  else some (r, w)

/-- `dslink_socket_read_timeout`. -/
def dslink_socket_read_timeout (env : Env) (err : ErrH) (w : World) (sock : Ptr)
    (len : Nat) (timeout : Nat) : Option (Int × World) := do
  let o ← w.deref sock
  let (r, w) ←
    if o.secure ≠ 0 then
      match o with
      | Obj.SslSocket _ _ _ _ ssl conf => do
        let w ← mbedtls_ssl_conf_read_timeout w conf timeout
        mbedtls_ssl_read env w ssl len
      | Obj.Socket _ _ => none
    else mbedtls_net_recv_timeout env w o.socket_fd len timeout
  if r < 0 then some (err.DSLINK_SOCK_READ_ERR, { w with errno := r })
  else some (r, w)

/-- `dslink_socket_write`. -/
def dslink_socket_write (env : Env) (err : ErrH) (w : World) (sock : Ptr) (len : Nat) :
    Option (Int × World) := do
  let o ← w.deref sock
  let (r, w) ←
    if o.secure ≠ 0 then
      match o with
      | Obj.SslSocket _ _ _ _ ssl _ => mbedtls_ssl_write env w ssl len
      | Obj.Socket _ _ => none
    else mbedtls_net_send env w o.socket_fd len
  if r < 0 then some (err.DSLINK_SOCK_WRITE_ERR, { w with errno := r })
  else some (r, w)

/-- `dslink_socket_close`.  The record is read again after the secure branch:
the C code reads `sock->socket_fd` once the sub-resources are gone. -/
def dslink_socket_close (w : World) (sock : Ptr) : Option World :=
  if sock = 0 then some w
  else do
    let o ← w.deref sock
    let w ←
      if o.secure ≠ 0 then
        match o with
        | Obj.SslSocket _ _ entropy drbg ssl conf => do
          let w ← mbedtls_ssl_close_notify w ssl
          let w ← mbedtls_entropy_free w entropy
          let w ← mbedtls_ctr_drbg_free w drbg
          let w ← mbedtls_ssl_free w ssl
          let w ← mbedtls_ssl_config_free w conf
          let w ← free w entropy
          let w ← free w drbg
          let w ← free w ssl
          free w conf
        | Obj.Socket _ _ => none
      else some w
    let o ← w.deref sock
    let w ← mbedtls_net_free w o.socket_fd
    let w ← free w o.socket_fd
    free w sock

/-! ## Reading a trace -/

/-- The non-null addresses in a list of pointers. -/
def nonNull (ps : List Ptr) : List Ptr :=
  ps.filter (fun p => !decide (p = 0))

/-- The blocks a trace allocated: the non-null results of its `malloc` calls, in order. -/
def allocated (tr : List Event) : List Ptr :=
  tr.filterMap (fun e => match e with
    | Event.malloc p => if p = 0 then none else some p
    | _ => none)

/-- The blocks a trace released: the non-null arguments of its `free` calls, in order. -/
def released (tr : List Event) : List Ptr :=
  tr.filterMap (fun e => match e with
    | Event.free p => if p = 0 then none else some p
    | _ => none)

/-- Release a list of blocks, skipping null pointers, in the order given: the
shape of the clean-up in `dslink_socket_init`. -/
def freeAll (w : World) : List Ptr → Option World
  | [] => some w
  | p :: ps => (DSLINK_CHECKED_EXEC free w p).bind (fun w1 => freeAll w1 ps)

/-- The world `w` arose from `w0` by `malloc` calls that returned `ps`, in order. -/
structure Grown (w0 w : World) (ps : List Ptr) : Prop where
  live : w.live = (nonNull ps).reverse ++ w0.live
  trace : w.trace = w0.trace ++ ps.map Event.malloc
  fresh : ∀ p : Nat, p ∈ nonNull ps → w0.brk < p ∧ p ≤ w.brk
  brk_le : w0.brk ≤ w.brk
  nodup : (nonNull ps).Nodup
  mallocs : w.mallocs = w0.mallocs + ps.length
  socks : w.socks = w0.socks
  ready : w.ready = w0.ready
  read_timeout : w.read_timeout = w0.read_timeout
  handshakes : w.handshakes = w0.handshakes
  errno : w.errno = w0.errno

/-! ## Handles -/

/-- `sock` points to a complete secure handle: an `SslSocket` record with a
non-zero tag whose six blocks are distinct, non-null and allocated, and whose
five contexts have been initialised. -/
structure SecureHandle (w : World) (sock secure fd en dr ssl conf : Nat) : Prop where
  record : w.deref sock = some (Obj.SslSocket secure fd en dr ssl conf)
  tag : secure ≠ 0
  distinct : [sock, fd, en, dr, ssl, conf].Nodup
  nonnull : ∀ p ∈ [sock, fd, en, dr, ssl, conf], p ≠ 0
  live : ∀ p ∈ [sock, fd, en, dr, ssl, conf], p ∈ w.live
  net : (Ctx.net, fd) ∈ w.ready
  entropy : (Ctx.entropy, en) ∈ w.ready
  ctr_drbg : (Ctx.ctr_drbg, dr) ∈ w.ready
  tls : (Ctx.ssl, ssl) ∈ w.ready
  ssl_config : (Ctx.ssl_config, conf) ∈ w.ready

/-- `sock` points to a plain handle: a `Socket` record with tag `0` whose two
blocks are distinct, non-null and allocated.  The transport context is
initialised by `dslink_socket_connect_insecure`, not by `dslink_socket_init`. -/
structure PlainHandle (w : World) (sock fd : Nat) : Prop where
  record : w.deref sock = some (Obj.Socket 0 fd)
  distinct : sock ≠ fd
  nonnull : sock ≠ 0 ∧ fd ≠ 0
  live : sock ∈ w.live ∧ fd ∈ w.live

/-- The two results of `mbedtls_ssl_handshake` that ask for another step. -/
def isRetry (stat : Int) : Prop :=
  stat = MBEDTLS_ERR_SSL_WANT_READ ∨ stat = MBEDTLS_ERR_SSL_WANT_WRITE

instance (stat : Int) : Decidable (isRetry stat) := by
  unfold isRetry
  infer_instance

/-- The world after `n` more handshake steps on `ssl`. -/
def World.afterHandshakes (w : World) (ssl : Ptr) (n : Nat) : World :=
  { w with handshakes := w.handshakes + n,
           trace := w.trace ++ List.replicate n (Event.ssl_handshake ssl) }

/-- The mbedtls calls of `dslink_socket_connect_secure` before the handshake,
in source order. -/
def connectSteps (fd en dr ssl conf : Ptr) (address : String) (port : Nat) : List Event :=
  [Event.ctr_drbg_seed dr en,
   Event.net_connect fd address port,
   Event.ssl_config_defaults conf,
   Event.ssl_conf_authmode conf,
   Event.ssl_conf_rng conf dr,
   Event.ssl_setup ssl conf,
   Event.ssl_set_hostname ssl "_",
   Event.ssl_set_bio ssl fd]

/-- The calls of `dslink_socket_close` on a secure handle, in source order. -/
def closeSteps (sock fd en dr ssl conf : Ptr) : List Event :=
  [Event.ssl_close_notify ssl,
   Event.ctx_free Ctx.entropy en,
   Event.ctx_free Ctx.ctr_drbg dr,
   Event.ctx_free Ctx.ssl ssl,
   Event.ctx_free Ctx.ssl_config conf,
   Event.free en,
   Event.free dr,
   Event.free ssl,
   Event.free conf,
   Event.ctx_free Ctx.net fd,
   Event.free fd,
   Event.free sock]

/-- The order in which the spec has a secure handle torn down: close-notify,
then TLS engine, TLS configuration, random generator and entropy source, each
freed and its storage released before the next is touched, then the storage
of the transport and of the handle. -/
def specCloseOrder (sock fd en dr ssl conf : Ptr) : List Event :=
  [Event.ssl_close_notify ssl,
   Event.ctx_free Ctx.ssl ssl,
   Event.free ssl,
   Event.ctx_free Ctx.ssl_config conf,
   Event.free conf,
   Event.ctx_free Ctx.ctr_drbg dr,
   Event.free dr,
   Event.ctx_free Ctx.entropy en,
   Event.free en,
   Event.free fd,
   Event.free sock]

/-- The world in which a secure connect stops once it has reached the
handshake: every step before the handshake was made, `n` handshake steps
were taken, and `errno` holds `stat`. -/
def World.afterConnect (w : World) (fd en dr ssl conf : Ptr) (address : String) (port : Nat)
    (n : Nat) (stat : Int) : World :=
  { w with errno := stat,
           handshakes := w.handshakes + n,
           trace := w.trace ++ connectSteps fd en dr ssl conf address port ++
             List.replicate n (Event.ssl_handshake ssl) }

/-- Calls that give something back: `free` and the `mbedtls_*_free` routines. -/
def Event.isRelease : Event → Bool
  | Event.free _ => true
  | Event.ctx_free _ _ => true
  | _ => false

/-- Calls that change what is allocated or which contexts are initialised:
`malloc`, `free`, the `mbedtls_*_init` and the `mbedtls_*_free` routines. -/
def Event.isHeap : Event → Bool
  | Event.malloc _ => true
  | Event.free _ => true
  | Event.ctx_init _ _ => true
  | Event.ctx_free _ _ => true
  | _ => false

/-- Read a trace from left to right, starting with the contexts `rdy` that are
initialised: `true` when every `mbedtls_*_free` in the trace acts on a context
that an `mbedtls_*_init` prepared earlier and whose storage has not been
released since. -/
def initBeforeFree : List (Ctx × Ptr) → List Event → Bool
  | _, [] => true
  | rdy, Event.ctx_init k p :: tr => initBeforeFree ((k, p) :: rdy) tr
  | rdy, Event.ctx_free k p :: tr => decide ((k, p) ∈ rdy) && initBeforeFree rdy tr
  | rdy, Event.free p :: tr => initBeforeFree (rdy.filter (fun e => e.2 ≠ p)) tr
  | rdy, _ :: tr => initBeforeFree rdy tr

/-- What `free(p)` does to storage: the block is no longer allocated and
whatever it held is gone. -/
def World.drop (w : World) (p : Ptr) : World :=
  { w with live := w.live.erase p,
           socks := w.socks.filter (fun e => e.1 ≠ p),
           ready := w.ready.filter (fun e => e.2 ≠ p) }

/-- The calls of a successful secure `dslink_socket_init` when the allocator
last handed out address `b`: six allocations, five context initialisations. -/
def secureInitSteps (b : Nat) : List Event :=
  [Event.malloc (b + 1), Event.malloc (b + 2), Event.malloc (b + 3),
   Event.malloc (b + 4), Event.malloc (b + 5), Event.malloc (b + 6),
   Event.ctx_init Ctx.net (b + 2), Event.ctx_init Ctx.entropy (b + 3),
   Event.ctx_init Ctx.ctr_drbg (b + 4), Event.ctx_init Ctx.ssl (b + 5),
   Event.ctx_init Ctx.ssl_config (b + 6)]

/-- The world `dslink_socket_init` leaves behind when it is asked for a secure
handle in `w` and all six allocations succeed: six fresh blocks, the record in
the first of them, and the five contexts initialised. -/
def World.withSecure (w : World) : World :=
  { w with
      brk := w.brk + 6
      mallocs := w.mallocs + 6
      live := [w.brk + 6, w.brk + 5, w.brk + 4, w.brk + 3, w.brk + 2, w.brk + 1] ++ w.live
      socks := (w.brk + 1,
        Obj.SslSocket 1 (w.brk + 2) (w.brk + 3) (w.brk + 4) (w.brk + 5) (w.brk + 6)) :: w.socks
      ready := [(Ctx.ssl_config, w.brk + 6), (Ctx.ssl, w.brk + 5), (Ctx.ctr_drbg, w.brk + 4),
        (Ctx.entropy, w.brk + 3), (Ctx.net, w.brk + 2)] ++ w.ready
      trace := w.trace ++ secureInitSteps w.brk }

/-- The world `dslink_socket_init` leaves behind when it is asked for a plain
handle in `w` and both allocations succeed.  No context is initialised yet. -/
def World.withPlain (w : World) : World :=
  { w with
      brk := w.brk + 2
      mallocs := w.mallocs + 2
      live := [w.brk + 2, w.brk + 1] ++ w.live
      socks := (w.brk + 1, Obj.Socket 0 (w.brk + 2)) :: w.socks
      trace := w.trace ++ [Event.malloc (w.brk + 1), Event.malloc (w.brk + 2)] }

/-- One call of the data-transfer API on a handle. -/
inductive Op where
  | read (len : Nat)
  | write (len : Nat)
deriving DecidableEq, Repr

/-- Make the calls `ops` on the handle `sock`, one after the other, whatever
each of them returns. -/
def runOps (env : Env) (err : ErrH) (sock : Ptr) : World → List Op → Option World
  | w, [] => some w
  | w, Op.read len :: ops =>
    (dslink_socket_read env err w sock len).bind (fun r => runOps env err sock r.2 ops)
  | w, Op.write len :: ops =>
    (dslink_socket_write env err w sock len).bind (fun r => runOps env err sock r.2 ops)

/-- The read timeout stored in the TLS configuration at `conf`, if any was stored. -/
def World.timeoutOf (w : World) (conf : Ptr) : Option Nat :=
  w.read_timeout.lookup conf

/-- A world in which nothing has happened yet. -/
def World.boot : World :=
  { brk := 0, mallocs := 0, live := [], socks := [], ready := [], read_timeout := [],
    handshakes := 0, errno := 0, trace := [] }

/-- An environment in which every allocation and every mbedtls call succeeds
and every transfer moves all `len` bytes. -/
def Env.quiet : Env :=
  { malloc_ok := fun _ => true
    ctr_drbg_seed := 0
    net_connect := 0
    ssl_config_defaults := 0
    ssl_setup := 0
    ssl_set_hostname := 0
    ssl_handshake := fun _ => 0
    ssl_read := fun _ len => len
    net_recv := fun _ len => len
    net_recv_timeout := fun _ len _ => len
    ssl_write := fun _ len => len
    net_send := fun _ len => len }

/-- A table of error codes with nine different values. -/
def sampleErr : ErrH :=
  { DSLINK_ALLOC_ERR := -1
    DSLINK_CRYPT_ENTROPY_SEED_ERR := -2
    DSLINK_SOCK_CONNECT_ERR := -3
    DSLINK_SOCK_SSL_CONFIG_ERR := -4
    DSLINK_SOCK_SSL_SETUP_ERR := -5
    DSLINK_SOCK_SSL_HOSTNAME_SET_ERR := -6
    DSLINK_SOCK_SSL_HANDSHAKE_ERR := -7
    DSLINK_SOCK_READ_ERR := -8
    DSLINK_SOCK_WRITE_ERR := -9 }

/-- The world `dslink_socket_init` leaves when asked for a secure handle in
`World.boot` and every allocation succeeds: the handle is block 1. -/
def sampleSecure : World :=
  { brk := 6, mallocs := 6, live := [6, 5, 4, 3, 2, 1],
    socks := [(1, Obj.SslSocket 1 2 3 4 5 6)],
    ready := [(Ctx.ssl_config, 6), (Ctx.ssl, 5), (Ctx.ctr_drbg, 4), (Ctx.entropy, 3), (Ctx.net, 2)],
    read_timeout := [], handshakes := 0, errno := 0,
    trace := [Event.malloc 1, Event.malloc 2, Event.malloc 3, Event.malloc 4, Event.malloc 5,
      Event.malloc 6, Event.ctx_init Ctx.net 2, Event.ctx_init Ctx.entropy 3,
      Event.ctx_init Ctx.ctr_drbg 4, Event.ctx_init Ctx.ssl 5, Event.ctx_init Ctx.ssl_config 6] }

/-- The world after a plain handle was set up and connected from `World.boot`:
the handle is block 1, its transport block 2. -/
def samplePlain : World :=
  { brk := 2, mallocs := 2, live := [2, 1],
    socks := [(1, Obj.Socket 0 2)],
    ready := [(Ctx.net, 2)],
    read_timeout := [], handshakes := 0, errno := 0,
    trace := [Event.malloc 1, Event.malloc 2, Event.ctx_init Ctx.net 2,
      Event.net_connect 2 "broker" 8080] }

/-- A handshake stepper that asks for more input `n` times and then answers `last`. -/
def stepper (n : Nat) (last : Int) : Nat → Int :=
  fun i => if i < n then MBEDTLS_ERR_SSL_WANT_READ else last

/-! ## Facts about the allocator -/

theorem allocated_append (a b : List Event) : allocated (a ++ b) = allocated a ++ allocated b := by
  simp [allocated]

theorem released_append (a b : List Event) : released (a ++ b) = released a ++ released b := by
  simp [released]

theorem allocated_map_malloc (ps : List Ptr) : allocated (ps.map Event.malloc) = nonNull ps := by
  induction ps with
  | nil => rfl
  | cons p ps ih =>
    by_cases hp : p = 0
    · simp [allocated, nonNull, hp] at ih ⊢; exact ih
    · simp [allocated, nonNull, hp] at ih ⊢; exact ih

theorem released_map_malloc (ps : List Ptr) : released (ps.map Event.malloc) = [] := by
  induction ps with
  | nil => rfl
  | cons p ps ih => simp [released]

theorem allocated_map_free (ps : List Ptr) : allocated (ps.map Event.free) = [] := by
  induction ps with
  | nil => rfl
  | cons p ps ih => simp [allocated]

theorem released_map_free (ps : List Ptr) : released (ps.map Event.free) = nonNull ps := by
  induction ps with
  | nil => rfl
  | cons p ps ih =>
    by_cases hp : p = 0
    · simpa [released, nonNull, hp] using ih
    · simpa [released, nonNull, hp] using ih

theorem Grown.refl (w : World) : Grown w w [] := by
  constructor <;> simp [nonNull]

theorem Grown.step {env : Env} {w0 w w1 : World} {ps : List Ptr} {p : Ptr}
    (g : Grown w0 w ps) (h : malloc env w = (p, w1)) :
    Grown w0 w1 (ps ++ [p]) ∧ (p = 0 ↔ env.malloc_ok w.mallocs = false) := by
  unfold malloc at h
  have hfr := g.fresh
  have hnd := g.nodup
  have hlv := g.live
  have hle := g.brk_le
  simp only [nonNull, List.mem_filter, Bool.not_eq_true', decide_eq_false_iff_not] at hfr hnd hlv
  cases hb : env.malloc_ok w.mallocs
  · simp [hb] at h
    obtain ⟨rfl, rfl⟩ := h
    refine ⟨?_, by simp⟩
    constructor <;> simp [nonNull, List.filter_append, g.trace, g.mallocs, g.socks, g.ready,
      g.read_timeout, g.handshakes, g.errno, g.brk_le, Nat.add_assoc]
    · exact hlv
    · exact fun q hq hq0 => hfr q ⟨hq, hq0⟩
    · exact hnd
  · simp [hb] at h
    obtain ⟨rfl, rfl⟩ := h
    refine ⟨?_, by simp⟩
    constructor <;> simp [nonNull, List.filter_append, g.trace, g.mallocs, g.socks, g.ready,
      g.read_timeout, g.handshakes, g.errno, Nat.add_assoc]
    · exact hlv
    · intro q hq
      rcases hq with hq | rfl
      · have := hfr q hq
        omega
      · omega
    · omega
    · rw [List.nodup_append]
      refine ⟨hnd, by simp, ?_⟩
      intro a ha hb2
      simp at hb2
      subst hb2
      have := hfr (w.brk + 1) (by simpa using ha)
      omega

theorem freeAll_owned (ps : List Ptr) : ∀ (w : World) (l base : List Ptr),
    w.live = l ++ base → l.Perm (nonNull ps) → (nonNull ps).Nodup →
    ∃ w1, freeAll w ps = some w1 ∧ w1.live = base ∧
      w1.trace = w.trace ++ (nonNull ps).map Event.free ∧
      w1.brk = w.brk ∧ w1.mallocs = w.mallocs ∧ w1.read_timeout = w.read_timeout ∧
      w1.handshakes = w.handshakes ∧ w1.errno = w.errno := by
  induction ps with
  | nil =>
    intro w l base hl hp _
    have : l = [] := by simpa [nonNull] using hp
    subst this
    exact ⟨w, rfl, by simpa using hl, by simp [nonNull], rfl, rfl, rfl, rfl, rfl⟩
  | cons p ps ih =>
    intro w l base hl hp hnd
    by_cases h0 : p = 0
    · subst h0
      have hnn : nonNull (0 :: ps) = nonNull ps := by simp [nonNull]
      rw [hnn] at hp hnd
      obtain ⟨w1, h1, h2, h3, h4⟩ := ih w l base hl hp hnd
      exact ⟨w1, by simpa [freeAll, DSLINK_CHECKED_EXEC] using h1, h2, by rw [hnn]; exact h3, h4⟩
    · have hnn : nonNull (p :: ps) = p :: nonNull ps := by simp [nonNull, h0]
      rw [hnn] at hp hnd
      have hmem : p ∈ l := hp.symm.subset (List.mem_cons_self _ _)
      have hlive : p ∈ w.live := by rw [hl]; exact List.mem_append_left _ hmem
      have hp2 : (l.erase p).Perm (nonNull ps) := by
        have := hp.erase p
        simpa using this
      obtain ⟨w1, h1, h2, h3, h4, h5, h6, h7, h8⟩ :=
        ih { w with live := w.live.erase p,
                    socks := w.socks.filter (fun e => e.1 ≠ p),
                    ready := w.ready.filter (fun e => e.2 ≠ p),
                    trace := w.trace ++ [Event.free p] } (l.erase p) base
          (by simp [hl, List.erase_append_left _ hmem]) hp2 (List.nodup_cons.mp hnd).2
      refine ⟨w1, ?_, h2, ?_, h4, h5, h6, h7, h8⟩
      · simpa [freeAll, DSLINK_CHECKED_EXEC, free, h0, hlive] using h1
      · rw [hnn, h3]; simp

theorem init_cleanup_of_freeAll {w w1 : World} {fd en dr ssl conf s : Ptr} (hs : s ≠ 0)
    (h : freeAll w [fd, en, dr, ssl, conf, s] = some w1) :
    (do
      let w ← DSLINK_CHECKED_EXEC free w fd
      let w ← DSLINK_CHECKED_EXEC free w en
      let w ← DSLINK_CHECKED_EXEC free w dr
      let w ← DSLINK_CHECKED_EXEC free w ssl
      let w ← DSLINK_CHECKED_EXEC free w conf
      let w ← free w s
      some ((0 : Ptr), w)) = some ((0 : Ptr), w1) := by
  simp only [freeAll, Option.bind_eq_some] at h
  obtain ⟨a1, h1, a2, h2, a3, h3, a4, h4, a5, h5, a6, h6, h7⟩ := h
  have h6b : free a5 s = some a6 := by simpa [DSLINK_CHECKED_EXEC, hs] using h6
  simp only [Option.some.injEq] at h7
  subst h7
  simp [h1, h2, h3, h4, h5, h6b]

theorem nonNull_nonNull (ps : List Ptr) : nonNull (nonNull ps) = nonNull ps := by
  simp [nonNull]

theorem initBeforeFree_append_neutral (a b : List Event) :
    ∀ rdy : List (Ctx × Ptr), (∀ e ∈ a, e.isHeap = false) →
      initBeforeFree rdy (a ++ b) = initBeforeFree rdy b := by
  induction a with
  | nil =>
    intro rdy _
    rfl
  | cons e a ih =>
    intro rdy h
    have he := h e (List.mem_cons_self _ _)
    have ha := ih rdy (fun x hx => h x (List.mem_cons_of_mem _ hx))
    cases e <;> simp [Event.isHeap] at he <;> simpa [initBeforeFree] using ha

theorem initBeforeFree_of_no_ctx_free (d : List Event) :
    ∀ rdy : List (Ctx × Ptr), (∀ e ∈ d, ∀ k p, e ≠ Event.ctx_free k p) →
      initBeforeFree rdy d = true := by
  induction d with
  | nil =>
    intro rdy _
    rfl
  | cons e d ih =>
    intro rdy h
    have he := h e (List.mem_cons_self _ _)
    have hd := fun r => ih r (fun x hx => h x (List.mem_cons_of_mem _ hx))
    cases e <;> simp [initBeforeFree, hd] at he ⊢

theorem allocated_of_neutral (d : List Event) (h : ∀ e ∈ d, e.isHeap = false) :
    allocated d = [] := by
  induction d with
  | nil => rfl
  | cons e d ih =>
    have he := h e (List.mem_cons_self _ _)
    have hd := ih (fun x hx => h x (List.mem_cons_of_mem _ hx))
    cases e <;> simp [Event.isHeap] at he <;> simpa [allocated] using hd

theorem released_of_neutral (d : List Event) (h : ∀ e ∈ d, e.isHeap = false) :
    released d = [] := by
  induction d with
  | nil => rfl
  | cons e d ih =>
    have he := h e (List.mem_cons_self _ _)
    have hd := ih (fun x hx => h x (List.mem_cons_of_mem _ hx))
    cases e <;> simp [Event.isHeap] at he <;> simpa [released] using hd

theorem connectSteps_neutral (fd en dr ssl conf : Ptr) (address : String) (port : Nat) :
    ∀ e ∈ connectSteps fd en dr ssl conf address port, e.isHeap = false := by
  intro e he
  simp only [connectSteps, List.mem_cons, List.mem_singleton, List.not_mem_nil, or_false] at he
  rcases he with rfl | rfl | rfl | rfl | rfl | rfl | rfl | rfl <;> rfl

theorem init_secure_alloc_fail (env : Env) (w : World) (secure : Nat) (hsec : secure ≠ 0)
    (h : ¬ (env.malloc_ok w.mallocs = true ∧ env.malloc_ok (w.mallocs + 1) = true ∧
        env.malloc_ok (w.mallocs + 2) = true ∧ env.malloc_ok (w.mallocs + 3) = true ∧
        env.malloc_ok (w.mallocs + 4) = true ∧ env.malloc_ok (w.mallocs + 5) = true)) :
    ∃ w1 d, dslink_socket_init env w secure = some (0, w1) ∧ w1.trace = w.trace ++ d ∧
      w1.live = w.live ∧ (allocated d).Nodup ∧ (released d).Perm (allocated d) ∧
      (env.malloc_ok w.mallocs = true → w.brk + 1 ∈ released d) ∧
      (∀ e ∈ d, ∀ k p, e ≠ Event.ctx_free k p) := by
  unfold dslink_socket_init
  rw [if_pos hsec]
  rcases h0 : malloc env w with ⟨s, w1⟩
  obtain ⟨g1, e1⟩ := (Grown.refl w).step h0
  by_cases hs0 : s = 0
  · subst hs0
    refine ⟨w1, [Event.malloc 0], by simp, by simpa using g1.trace, by simpa [nonNull] using g1.live,
      by simp [allocated], by simp [allocated, released], ?_, by simp⟩
    intro hb
    rw [e1.mp rfl] at hb
    cases hb
  · rcases h1 : malloc env w1 with ⟨fd, w2⟩
    obtain ⟨g2, e2⟩ := g1.step h1
    rcases h2 : malloc env w2 with ⟨en, w3⟩
    obtain ⟨g3, e3⟩ := g2.step h2
    rcases h3 : malloc env w3 with ⟨dr, w4⟩
    obtain ⟨g4, e4⟩ := g3.step h3
    rcases h4 : malloc env w4 with ⟨ssl, w5⟩
    obtain ⟨g5, e5⟩ := g4.step h4
    rcases h5 : malloc env w5 with ⟨conf, w6⟩
    obtain ⟨g6, e6⟩ := g5.step h5
    rw [g1.mallocs] at e2
    rw [g2.mallocs] at e3
    rw [g3.mallocs] at e4
    rw [g4.mallocs] at e5
    rw [g5.mallocs] at e6
    simp only [List.nil_append, List.cons_append, List.length_cons, List.length_nil,
      Nat.zero_add, Nat.reduceAdd] at g1 g2 g3 g4 g5 g6 e1 e2 e3 e4 e5 e6
    have hbase : env.malloc_ok w.mallocs = true := by
      cases hb : env.malloc_ok w.mallocs
      · exact absurd (e1.mpr hb) hs0
      · rfl
    have hfail : ¬ (fd ≠ 0 ∧ en ≠ 0 ∧ dr ≠ 0 ∧ ssl ≠ 0 ∧ conf ≠ 0) := by
      intro hc
      apply h
      simp only [ne_eq, e2, e3, e4, e5, e6, Bool.not_eq_false] at hc
      exact ⟨hbase, hc⟩
    simp only [h1, h2, h3, h4, h5, if_neg hs0, if_pos hfail]
    have hperm : (nonNull [fd, en, dr, ssl, conf, s]).Perm (nonNull [s, fd, en, dr, ssl, conf]) := by
      unfold nonNull
      apply List.Perm.filter
      exact @List.perm_append_comm _ [fd, en, dr, ssl, conf] [s]
    obtain ⟨wf, hf1, hf2, hf3, -⟩ :=
      freeAll_owned [fd, en, dr, ssl, conf, s]
        (w6.store s (Obj.SslSocket 1 fd en dr ssl conf))
        (nonNull [s, fd, en, dr, ssl, conf]).reverse w.live
        (by simpa [World.store] using g6.live)
        ((List.reverse_perm _).trans hperm.symm)
        (hperm.nodup_iff.mpr g6.nodup)
    refine ⟨wf, [s, fd, en, dr, ssl, conf].map Event.malloc ++
        (nonNull [fd, en, dr, ssl, conf, s]).map Event.free,
      init_cleanup_of_freeAll hs0 hf1, ?_, hf2, ?_, ?_, ?_, ?_⟩
    · rw [hf3]
      simp [World.store, g6.trace]
    · rw [allocated_append, allocated_map_malloc, allocated_map_free, List.append_nil]
      exact g6.nodup
    · rw [allocated_append, allocated_map_malloc, allocated_map_free, List.append_nil,
        released_append, released_map_malloc, released_map_free, List.nil_append,
        nonNull_nonNull]
      exact hperm
    · intro _
      have hsv : s = w.brk + 1 := by
        simp only [malloc, hbase, if_true, Prod.mk.injEq] at h0
        exact h0.1.symm
      rw [released_append, released_map_malloc, released_map_free, List.nil_append,
        nonNull_nonNull, ← hsv]
      simp [nonNull, hs0]
    · intro e he k p hc
      subst hc
      rcases List.mem_append.mp he with he | he
      · obtain ⟨q, -, hq⟩ := List.mem_map.mp he
        cases hq
      · obtain ⟨q, -, hq⟩ := List.mem_map.mp he
        cases hq

/-! ## The handshake loop -/

theorem handshake_loop_retry (env : Env) (err : ErrH) (ssl : Ptr) (fuel : Nat) :
    ∀ (n : Nat) (w : World), (Ctx.ssl, ssl) ∈ w.ready →
      (∀ i, i < n → isRetry (env.ssl_handshake (w.handshakes + i))) →
      handshake_loop env err ssl (n + fuel) w =
        handshake_loop env err ssl fuel (w.afterHandshakes ssl n) := by
  intro n
  induction n with
  | zero =>
    intro w _ _
    simp [World.afterHandshakes]
  | succ n ih =>
    intro w hr h
    have h0 := h 0 (Nat.succ_pos n)
    have hne : env.ssl_handshake w.handshakes ≠ 0 := by
      rcases h0 with h0 | h0 <;> simp at h0 <;> rw [h0] <;> decide
    have hnf : ¬ (env.ssl_handshake w.handshakes ≠ MBEDTLS_ERR_SSL_WANT_READ ∧
        env.ssl_handshake w.handshakes ≠ MBEDTLS_ERR_SSL_WANT_WRITE) := by
      rcases h0 with h0 | h0 <;> simp at h0 <;> simp [h0]
    have hstep : n + 1 + fuel = (n + fuel) + 1 := by omega
    rw [hstep]
    simp only [handshake_loop, mbedtls_ssl_handshake, ctxUse, hr, if_true, World.log,
      Option.bind_eq_bind, Option.some_bind, hne, hnf, ne_eq, not_false_eq_true, if_false]
    rw [ih _ (by simpa using hr)]
    · congr 1
      simp [World.afterHandshakes, List.replicate_succ, Nat.add_assoc, Nat.add_comm 1 n]
    · intro i hi
      have := h (i + 1) (by omega)
      simpa [Nat.add_assoc, Nat.add_comm 1 i] using this

theorem handshake_loop_done (env : Env) (err : ErrH) (ssl : Ptr) (fuel : Nat) (w : World)
    (hr : (Ctx.ssl, ssl) ∈ w.ready) (h : env.ssl_handshake w.handshakes = 0) :
    handshake_loop env err ssl (fuel + 1) w = some (0, w.afterHandshakes ssl 1) := by
  simp [handshake_loop, mbedtls_ssl_handshake, ctxUse, hr, World.log, h, World.afterHandshakes]

theorem handshake_loop_fatal (env : Env) (err : ErrH) (ssl : Ptr) (fuel : Nat) (w : World)
    (hr : (Ctx.ssl, ssl) ∈ w.ready) (h0 : env.ssl_handshake w.handshakes ≠ 0)
    (h : ¬ isRetry (env.ssl_handshake w.handshakes)) :
    handshake_loop env err ssl (fuel + 1) w =
      some (err.DSLINK_SOCK_SSL_HANDSHAKE_ERR,
        { w.afterHandshakes ssl 1 with errno := env.ssl_handshake w.handshakes }) := by
  have hf : env.ssl_handshake w.handshakes ≠ MBEDTLS_ERR_SSL_WANT_READ ∧
      env.ssl_handshake w.handshakes ≠ MBEDTLS_ERR_SSL_WANT_WRITE := by
    constructor
    · exact fun hc => h (Or.inl hc)
    · exact fun hc => h (Or.inr hc)
  simp [handshake_loop, mbedtls_ssl_handshake, ctxUse, hr, World.log, h0, hf,
    World.afterHandshakes]

/-- The loop, once `n` retry results are followed by a result that is not a
retry signal: it stops at that step, with `0` when the result is `0` and with
the handshake error code otherwise. -/
theorem handshake_loop_stops (env : Env) (err : ErrH) (ssl : Ptr) (fuel n : Nat) (w : World)
    (hr : (Ctx.ssl, ssl) ∈ w.ready) (hfuel : n < fuel)
    (hretry : ∀ i, i < n → isRetry (env.ssl_handshake (w.handshakes + i)))
    (hstop : ¬ isRetry (env.ssl_handshake (w.handshakes + n))) :
    handshake_loop env err ssl fuel w =
      if env.ssl_handshake (w.handshakes + n) = 0 then
        some (0, w.afterHandshakes ssl (n + 1))
      else
        some (err.DSLINK_SOCK_SSL_HANDSHAKE_ERR,
          { w.afterHandshakes ssl (n + 1) with errno := env.ssl_handshake (w.handshakes + n) }) := by
  obtain ⟨k, rfl⟩ : ∃ k, fuel = n + (k + 1) := ⟨fuel - n - 1, by omega⟩
  rw [handshake_loop_retry env err ssl (k + 1) n w hr hretry]
  have hr2 : (Ctx.ssl, ssl) ∈ (w.afterHandshakes ssl n).ready := by
    simpa [World.afterHandshakes] using hr
  have hh : (w.afterHandshakes ssl n).handshakes = w.handshakes + n := rfl
  by_cases h0 : env.ssl_handshake (w.handshakes + n) = 0
  · rw [if_pos h0, handshake_loop_done env err ssl k _ hr2 (by rw [hh]; exact h0)]
    simp [World.afterHandshakes, List.replicate_succ', Nat.add_assoc]
  · rw [if_neg h0, handshake_loop_fatal env err ssl k _ hr2 (by rw [hh]; exact h0)
      (by rw [hh]; exact hstop)]
    simp [World.afterHandshakes, List.replicate_succ', Nat.add_assoc]

/-! ## `dslink_socket_connect_secure` on a complete handle -/

/-- The secure connect path in closed form: it stops at the first step that
answers non-zero, with that step's error code, the answer in `errno` and the
calls made so far in the trace; when no step fails it enters the handshake
loop. -/
theorem connect_secure_eq (env : Env) (err : ErrH) (fuel : Nat) (w : World)
    (sock secure fd en dr ssl conf : Nat) (address : String) (port : Nat)
    (h : SecureHandle w sock secure fd en dr ssl conf) :
    dslink_socket_connect_secure env err fuel w sock address port =
      if env.ctr_drbg_seed ≠ 0 then
        some (err.DSLINK_CRYPT_ENTROPY_SEED_ERR,
          { w with errno := env.ctr_drbg_seed,
                   trace := w.trace ++ (connectSteps fd en dr ssl conf address port).take 1 })
      else if env.net_connect ≠ 0 then
        some (err.DSLINK_SOCK_CONNECT_ERR,
          { w with errno := env.net_connect,
                   trace := w.trace ++ (connectSteps fd en dr ssl conf address port).take 2 })
      else if env.ssl_config_defaults ≠ 0 then
        some (err.DSLINK_SOCK_SSL_CONFIG_ERR,
          { w with errno := env.ssl_config_defaults,
                   trace := w.trace ++ (connectSteps fd en dr ssl conf address port).take 3 })
      else if env.ssl_setup ≠ 0 then
        some (err.DSLINK_SOCK_SSL_SETUP_ERR,
          { w with errno := env.ssl_setup,
                   trace := w.trace ++ (connectSteps fd en dr ssl conf address port).take 6 })
      else if env.ssl_set_hostname ≠ 0 then
        some (err.DSLINK_SOCK_SSL_HOSTNAME_SET_ERR,
          { w with errno := env.ssl_set_hostname,
                   trace := w.trace ++ (connectSteps fd en dr ssl conf address port).take 7 })
      else
        handshake_loop env err ssl fuel
          { w with errno := 0,
                   trace := w.trace ++ connectSteps fd en dr ssl conf address port } := by
  have h1 := h.net
  have h2 := h.entropy
  have h3 := h.ctr_drbg
  have h4 := h.tls
  have h5 := h.ssl_config
  unfold dslink_socket_connect_secure
  simp only [h.record, Option.bind_eq_bind, Option.some_bind, Option.pure_def]
  by_cases c1 : env.ctr_drbg_seed = 0
  case neg =>
    simp [mbedtls_ctr_drbg_seed, ctxUse, World.log, h2, h3, c1, connectSteps]
  by_cases c2 : env.net_connect = 0
  case neg =>
    simp [mbedtls_ctr_drbg_seed, mbedtls_net_connect, ctxUse, World.log, h1, h2, h3, c1, c2,
      connectSteps]
  by_cases c3 : env.ssl_config_defaults = 0
  case neg =>
    simp [mbedtls_ctr_drbg_seed, mbedtls_net_connect, mbedtls_ssl_config_defaults, ctxUse,
      World.log, h1, h2, h3, h5, c1, c2, c3, connectSteps]
  by_cases c4 : env.ssl_setup = 0
  case neg =>
    simp [mbedtls_ctr_drbg_seed, mbedtls_net_connect, mbedtls_ssl_config_defaults,
      mbedtls_ssl_conf_authmode, mbedtls_ssl_conf_rng, mbedtls_ssl_setup, ctxUse, World.log,
      h1, h2, h3, h4, h5, c1, c2, c3, c4, connectSteps]
  by_cases c5 : env.ssl_set_hostname = 0 <;>
  simp [mbedtls_ctr_drbg_seed, mbedtls_net_connect, mbedtls_ssl_config_defaults,
    mbedtls_ssl_conf_authmode, mbedtls_ssl_conf_rng, mbedtls_ssl_setup, mbedtls_ssl_set_hostname,
    mbedtls_ssl_set_bio, ctxUse, World.log, h1, h2, h3, h4, h5, c1, c2, c3, c4, c5, connectSteps]

/-- Whatever the handshake loop returns, it has only taken handshake steps:
the trace grew by handshake calls alone, at least one, and of the world only
the step counter and `errno` changed. -/
theorem handshake_loop_frame (env : Env) (err : ErrH) (ssl : Ptr) :
    ∀ (fuel : Nat) (w : World) (rc : Int) (w1 : World),
      handshake_loop env err ssl fuel w = some (rc, w1) →
      ∃ n, w1.trace = w.trace ++ List.replicate (n + 1) (Event.ssl_handshake ssl) ∧
        w1.handshakes = w.handshakes + (n + 1) ∧
        w1.live = w.live ∧ w1.socks = w.socks ∧ w1.ready = w.ready ∧ w1.brk = w.brk ∧
        w1.mallocs = w.mallocs ∧ w1.read_timeout = w.read_timeout ∧
        (rc = 0 ∨ rc = err.DSLINK_SOCK_SSL_HANDSHAKE_ERR) := by
  intro fuel
  induction fuel with
  | zero =>
    intro w rc w1 h
    simp [handshake_loop] at h
  | succ fuel ih =>
    intro w rc w1 h
    by_cases hr : (Ctx.ssl, ssl) ∈ w.ready
    case neg =>
      simp [handshake_loop, mbedtls_ssl_handshake, ctxUse, hr] at h
    by_cases h0 : env.ssl_handshake w.handshakes = 0
    · rw [handshake_loop_done env err ssl fuel w hr h0] at h
      simp only [Option.some.injEq, Prod.mk.injEq] at h
      obtain ⟨rfl, rfl⟩ := h
      exact ⟨0, by simp [World.afterHandshakes], by simp [World.afterHandshakes], rfl, rfl, rfl,
        rfl, rfl, rfl, Or.inl rfl⟩
    · by_cases hre : isRetry (env.ssl_handshake w.handshakes)
      · have h1 := handshake_loop_retry env err ssl fuel 1 w hr
          (by intro i hi; have : i = 0 := by omega
              subst this; simpa using hre)
        rw [Nat.add_comm 1 fuel] at h1
        rw [h1] at h
        obtain ⟨n, e1, e2, e3, e4, e5, e6, e7, e8, e9⟩ := ih _ rc w1 h
        refine ⟨n + 1, ?_, ?_, e3, e4, e5, e6, e7, e8, e9⟩
        · rw [e1]
          simp [World.afterHandshakes, List.replicate_succ]
        · rw [e2]
          simp [World.afterHandshakes]
          omega
      · rw [handshake_loop_fatal env err ssl fuel w hr h0 hre] at h
        simp only [Option.some.injEq, Prod.mk.injEq] at h
        obtain ⟨rfl, rfl⟩ := h
        exact ⟨0, by simp [World.afterHandshakes], by simp [World.afterHandshakes], rfl, rfl,
          rfl, rfl, rfl, rfl, Or.inr rfl⟩

theorem SecureHandle.frame {w w1 : World} {sock secure fd en dr ssl conf : Nat}
    (h : SecureHandle w sock secure fd en dr ssl conf)
    (hl : w1.live = w.live) (hs : w1.socks = w.socks) (hr : w1.ready = w.ready) :
    SecureHandle w1 sock secure fd en dr ssl conf := by
  refine ⟨?_, h.tag, h.distinct, h.nonnull, ?_, ?_, ?_, ?_, ?_, ?_⟩
  · simpa [World.deref, hs] using h.record
  · simpa [hl] using h.live
  · simpa [hr] using h.net
  · simpa [hr] using h.entropy
  · simpa [hr] using h.ctr_drbg
  · simpa [hr] using h.tls
  · simpa [hr] using h.ssl_config

/-! ## The sample worlds are what the code produces -/

theorem sampleSecure_reached :
    dslink_socket_init Env.quiet World.boot 1 = some (1, sampleSecure) := by
  rfl

theorem samplePlain_reached :
    dslink_socket_connect Env.quiet sampleErr 0 World.boot "broker" 8080 0 =
      some (0, 1, samplePlain) := by
  rfl

theorem sampleSecure_handle : SecureHandle sampleSecure 1 1 2 3 4 5 6 := by
  constructor <;> decide

/-! ## `dslink_socket_close` -/

theorem lookup_filter_ne (l : List (Ptr × Obj)) (sock p : Ptr) (hne : sock ≠ p) :
    (l.filter (fun e => !decide (e.1 = p))).lookup sock = l.lookup sock := by
  induction l with
  | nil => rfl
  | cons a l ih =>
    obtain ⟨q, o⟩ := a
    by_cases hq : q = p
    · subst hq
      have : (sock == q) = false := by simpa using hne
      simp [List.lookup, this, ih]
    · by_cases hs : sock = q
      · subst hs
        simp [List.lookup, hq]
      · have : (sock == q) = false := by simpa using hs
        simp [List.lookup, hq, this, ih]

theorem free_live (w : World) (p : Ptr) (h0 : p ≠ 0) (hl : p ∈ w.live) :
    free w p = some ((w.drop p).log (Event.free p)) := by
  simp [free, h0, hl, World.drop, World.log]

theorem close_secure_eq (w : World) (sock secure fd en dr ssl conf : Nat)
    (h : SecureHandle w sock secure fd en dr ssl conf) :
    dslink_socket_close w sock =
      some { (((((w.drop en).drop dr).drop ssl).drop conf).drop fd).drop sock with
               trace := w.trace ++ closeSteps sock fd en dr ssl conf } := by
  have hd := h.distinct
  have hn := h.nonnull
  have hl := h.live
  have h1 := h.net
  have h2 := h.entropy
  have h3 := h.ctr_drbg
  have h4 := h.tls
  have h5 := h.ssl_config
  have hrec := h.record
  have htag := h.tag
  simp only [List.nodup_cons, List.mem_cons, List.mem_singleton, not_or, List.not_mem_nil,
    not_false_eq_true, List.nodup_nil, and_true, forall_eq_or_imp, forall_eq, or_false,
    IsEmpty.forall_iff, implies_true] at hd hn hl
  obtain ⟨⟨d1, d2, d3, d4, d5⟩, ⟨d6, d7, d8, d9⟩, ⟨d10, d11, d12⟩, ⟨d13, d14⟩, d15⟩ := hd
  obtain ⟨n1, n2, n3, n4, n5, n6⟩ := hn
  obtain ⟨l1, l2, l3, l4, l5, l6⟩ := hl
  have e1 : fd ≠ sock := Ne.symm d1
  have e2 : en ≠ sock := Ne.symm d2
  have e3 : dr ≠ sock := Ne.symm d3
  have e4 : ssl ≠ sock := Ne.symm d4
  have e5 : conf ≠ sock := Ne.symm d5
  have e6 : en ≠ fd := Ne.symm d6
  have e7 : dr ≠ fd := Ne.symm d7
  have e8 : ssl ≠ fd := Ne.symm d8
  have e9 : conf ≠ fd := Ne.symm d9
  have e10 : dr ≠ en := Ne.symm d10
  have e11 : ssl ≠ en := Ne.symm d11
  have e12 : conf ≠ en := Ne.symm d12
  have e13 : ssl ≠ dr := Ne.symm d13
  have e14 : conf ≠ dr := Ne.symm d14
  have e15 : conf ≠ ssl := Ne.symm d15
  simp only [World.deref] at hrec
  simp [-List.filter_filter, dslink_socket_close, World.deref, hrec, Obj.secure, Obj.socket_fd,
    mbedtls_ssl_close_notify, mbedtls_entropy_free, mbedtls_ctr_drbg_free, mbedtls_ssl_free,
    mbedtls_ssl_config_free, mbedtls_net_free, ctxUse, World.log, free, World.drop, closeSteps,
    lookup_filter_ne, List.mem_erase_of_ne, *]

/-! ## `dslink_socket_init` when every allocation succeeds -/

theorem init_secure_ok (env : Env) (w : World) (secure : Nat) (hsec : secure ≠ 0)
    (h0 : env.malloc_ok w.mallocs = true) (h1 : env.malloc_ok (w.mallocs + 1) = true)
    (h2 : env.malloc_ok (w.mallocs + 2) = true) (h3 : env.malloc_ok (w.mallocs + 3) = true)
    (h4 : env.malloc_ok (w.mallocs + 4) = true) (h5 : env.malloc_ok (w.mallocs + 5) = true) :
    dslink_socket_init env w secure = some (w.brk + 1, w.withSecure) := by
  simp [dslink_socket_init, malloc, hsec, h0, h1, h2, h3, h4, h5, World.store, World.withSecure,
    secureInitSteps, mbedtls_net_init, mbedtls_entropy_init, mbedtls_ctr_drbg_init, mbedtls_ssl_init,
    mbedtls_ssl_config_init, ctxInit, Nat.add_assoc]

theorem withSecure_handle (w : World) :
    SecureHandle w.withSecure (w.brk + 1) 1 (w.brk + 2) (w.brk + 3) (w.brk + 4) (w.brk + 5)
      (w.brk + 6) := by
  constructor <;> simp [World.withSecure, World.deref, List.lookup]

theorem init_plain_ok (env : Env) (w : World)
    (h0 : env.malloc_ok w.mallocs = true) (h1 : env.malloc_ok (w.mallocs + 1) = true) :
    dslink_socket_init env w 0 = some (w.brk + 1, w.withPlain) := by
  simp [dslink_socket_init, malloc, h0, h1, World.store, World.withPlain, Nat.add_assoc]

theorem init_plain_fail (env : Env) (w : World)
    (h : ¬ (env.malloc_ok w.mallocs = true ∧ env.malloc_ok (w.mallocs + 1) = true)) :
    ∃ w1 d, dslink_socket_init env w 0 = some (0, w1) ∧ w1.trace = w.trace ++ d ∧
      w1.live = w.live ∧ (allocated d).Nodup ∧ (released d).Perm (allocated d) ∧
      (∀ e ∈ d, ∀ k p, e ≠ Event.ctx_free k p) := by
  cases h0 : env.malloc_ok w.mallocs
  · exact ⟨{ w with mallocs := w.mallocs + 1, trace := w.trace ++ [Event.malloc 0] },
      [Event.malloc 0], by simp [dslink_socket_init, malloc, h0], rfl, rfl,
      by simp [allocated], by simp [allocated, released], by simp⟩
  · cases h1 : env.malloc_ok (w.mallocs + 1)
    · refine ⟨{ w with brk := w.brk + 1, mallocs := w.mallocs + 2,
                       socks := w.socks.filter (fun e => e.1 ≠ w.brk + 1),
                       ready := w.ready.filter (fun e => e.2 ≠ w.brk + 1),
                       trace := w.trace ++ [Event.malloc (w.brk + 1), Event.malloc 0,
                         Event.free (w.brk + 1)] },
        [Event.malloc (w.brk + 1), Event.malloc 0, Event.free (w.brk + 1)], ?_, rfl, rfl, ?_, ?_,
        ?_⟩
      · simp [dslink_socket_init, malloc, h0, h1, World.store, free]
      · simp [allocated]
      · simp [allocated, released]
      · simp
    · exact absurd ⟨h0, h1⟩ h

/-! ## What a returning connect leaves behind -/

/-- A secure connect that returns has changed neither the heap nor the
records nor the set of initialised contexts, and has called neither `malloc`
nor `free` nor an init or free routine of mbedtls. -/
theorem connect_secure_frame (env : Env) (err : ErrH) (fuel : Nat) (w : World)
    (sock secure fd en dr ssl conf : Nat) (address : String) (port : Nat)
    (h : SecureHandle w sock secure fd en dr ssl conf) (rc : Int) (w1 : World)
    (hres : dslink_socket_connect_secure env err fuel w sock address port = some (rc, w1)) :
    w1.live = w.live ∧ w1.socks = w.socks ∧ w1.ready = w.ready ∧
      ∃ d, w1.trace = w.trace ++ d ∧ ∀ e ∈ d, e.isHeap = false := by
  have hn := connectSteps_neutral fd en dr ssl conf address port
  rw [connect_secure_eq env err fuel w sock secure fd en dr ssl conf address port h] at hres
  split at hres
  · simp only [Option.some.injEq, Prod.mk.injEq] at hres
    obtain ⟨-, rfl⟩ := hres
    exact ⟨rfl, rfl, rfl, _, rfl, fun e he => hn e (List.mem_of_mem_take he)⟩
  split at hres
  · simp only [Option.some.injEq, Prod.mk.injEq] at hres
    obtain ⟨-, rfl⟩ := hres
    exact ⟨rfl, rfl, rfl, _, rfl, fun e he => hn e (List.mem_of_mem_take he)⟩
  split at hres
  · simp only [Option.some.injEq, Prod.mk.injEq] at hres
    obtain ⟨-, rfl⟩ := hres
    exact ⟨rfl, rfl, rfl, _, rfl, fun e he => hn e (List.mem_of_mem_take he)⟩
  split at hres
  · simp only [Option.some.injEq, Prod.mk.injEq] at hres
    obtain ⟨-, rfl⟩ := hres
    exact ⟨rfl, rfl, rfl, _, rfl, fun e he => hn e (List.mem_of_mem_take he)⟩
  split at hres
  · simp only [Option.some.injEq, Prod.mk.injEq] at hres
    obtain ⟨-, rfl⟩ := hres
    exact ⟨rfl, rfl, rfl, _, rfl, fun e he => hn e (List.mem_of_mem_take he)⟩
  · obtain ⟨n, e1, -, e3, e4, e5, -⟩ := handshake_loop_frame env err ssl fuel _ rc w1 hres
    refine ⟨e3, e4, e5, connectSteps fd en dr ssl conf address port ++
      List.replicate (n + 1) (Event.ssl_handshake ssl),
      by simpa [List.append_assoc] using e1, ?_⟩
    intro e he
    rcases List.mem_append.mp he with he | he
    · exact hn e he
    · rw [List.eq_of_mem_replicate he]
      rfl

theorem close_plain_eq (w : World) (sock fd : Nat) (h : PlainHandle w sock fd)
    (hr : (Ctx.net, fd) ∈ w.ready) :
    dslink_socket_close w sock =
      some { (w.drop fd).drop sock with
               trace := w.trace ++ [Event.ctx_free Ctx.net fd, Event.free fd, Event.free sock] } := by
  have hrec := h.record
  have hd := h.distinct
  obtain ⟨n1, n2⟩ := h.nonnull
  obtain ⟨l1, l2⟩ := h.live
  simp only [World.deref] at hrec
  simp [-List.filter_filter, dslink_socket_close, World.deref, hrec, Obj.secure, Obj.socket_fd,
    mbedtls_net_free, ctxUse, World.log, free, World.drop, List.mem_erase_of_ne, *]

/-- A plain connect in closed form, when both allocations succeed. -/
theorem connect_plain_eq (env : Env) (err : ErrH) (fuel : Nat) (w : World) (address : String)
    (port : Nat) (h0 : env.malloc_ok w.mallocs = true)
    (h1 : env.malloc_ok (w.mallocs + 1) = true) :
    dslink_socket_connect env err fuel w address port 0 =
      some (if env.net_connect ≠ 0 then err.DSLINK_SOCK_CONNECT_ERR else 0, w.brk + 1,
        { w.withPlain with
            ready := (Ctx.net, w.brk + 2) :: w.ready
            errno := env.net_connect
            trace := w.withPlain.trace ++
              [Event.ctx_init Ctx.net (w.brk + 2), Event.net_connect (w.brk + 2) address port] }) := by
  unfold dslink_socket_connect
  rw [init_plain_ok env w h0 h1]
  by_cases c : env.net_connect = 0 <;>
  simp [dslink_socket_connect_insecure, World.deref, World.withPlain, List.lookup, Obj.socket_fd,
    mbedtls_net_init, ctxInit, mbedtls_net_connect, ctxUse, World.log, c]

theorem perm_close_order (a b c d e f : Nat) : [c, d, e, f, b, a].Perm [a, b, c, d, e, f] :=
  (@List.perm_append_comm _ [c, d, e, f] [b, a]).trans (List.Perm.swap a b [c, d, e, f])

/-- The handshake loop returns as soon as the stepper gives, within the step
budget, an answer that is not a retry signal. -/
theorem handshake_loop_returns (env : Env) (err : ErrH) (ssl : Ptr) (fuel : Nat) (w : World)
    (hr : (Ctx.ssl, ssl) ∈ w.ready)
    (h : ∃ k, k < fuel ∧ ¬ isRetry (env.ssl_handshake (w.handshakes + k))) :
    ∃ r, handshake_loop env err ssl fuel w = some r := by
  classical
  have hspec := Nat.find_spec h
  have hmin : ∀ i, i < Nat.find h → isRetry (env.ssl_handshake (w.handshakes + i)) := by
    intro i hi
    by_contra hc
    exact Nat.find_min h hi ⟨Nat.lt_trans hi hspec.1, hc⟩
  rw [handshake_loop_stops env err ssl fuel (Nat.find h) w hr hspec.1 hmin hspec.2]
  split
  · exact ⟨_, rfl⟩
  · exact ⟨_, rfl⟩

/-- A secure connect on a complete handle returns as soon as the handshake
stepper gives, within the step budget, an answer that is not a retry signal. -/
theorem connect_secure_returns (env : Env) (err : ErrH) (fuel : Nat) (w : World)
    (sock secure fd en dr ssl conf : Nat) (address : String) (port : Nat)
    (h : SecureHandle w sock secure fd en dr ssl conf)
    (hstop : ∃ k, k < fuel ∧ ¬ isRetry (env.ssl_handshake (w.handshakes + k))) :
    ∃ r, dslink_socket_connect_secure env err fuel w sock address port = some r := by
  rw [connect_secure_eq env err fuel w sock secure fd en dr ssl conf address port h]
  split
  · exact ⟨_, rfl⟩
  split
  · exact ⟨_, rfl⟩
  split
  · exact ⟨_, rfl⟩
  split
  · exact ⟨_, rfl⟩
  split
  · exact ⟨_, rfl⟩
  · exact handshake_loop_returns env err ssl fuel _ h.tls hstop

/-- `dslink_socket_connect` returns, for either variant and whatever the
allocator and mbedtls answer, as soon as the handshake stepper gives, within
the step budget, an answer that is not a retry signal. -/
theorem connect_returns (env : Env) (err : ErrH) (fuel : Nat) (w : World)
    (address : String) (port : Nat) (secure : Nat)
    (hstop : ∃ k, k < fuel ∧ ¬ isRetry (env.ssl_handshake (w.handshakes + k))) :
    ∃ r, dslink_socket_connect env err fuel w address port secure = some r := by
  by_cases hsec : secure = 0
  · subst hsec
    by_cases hm : env.malloc_ok w.mallocs = true ∧ env.malloc_ok (w.mallocs + 1) = true
    · exact ⟨_, connect_plain_eq env err fuel w address port hm.1 hm.2⟩
    · obtain ⟨wf, d, h1, -⟩ := init_plain_fail env w hm
      exact ⟨(err.DSLINK_ALLOC_ERR, 0, wf), by simp [dslink_socket_connect, h1]⟩
  · by_cases hm : env.malloc_ok w.mallocs = true ∧ env.malloc_ok (w.mallocs + 1) = true ∧
        env.malloc_ok (w.mallocs + 2) = true ∧ env.malloc_ok (w.mallocs + 3) = true ∧
        env.malloc_ok (w.mallocs + 4) = true ∧ env.malloc_ok (w.mallocs + 5) = true
    · obtain ⟨m0, m1, m2, m3, m4, m5⟩ := hm
      obtain ⟨r, hr⟩ := connect_secure_returns env err fuel w.withSecure _ _ _ _ _ _ _ address
        port (withSecure_handle w) hstop
      exact ⟨(r.1, w.brk + 1, r.2), by
        simp [dslink_socket_connect, init_secure_ok env w secure hsec m0 m1 m2 m3 m4 m5, hsec, hr]⟩
    · obtain ⟨wf, d, h1, -⟩ := init_secure_alloc_fail env w secure hsec hm
      exact ⟨(err.DSLINK_ALLOC_ERR, 0, wf), by simp [dslink_socket_connect, h1]⟩

/-! ## Read and write in closed form -/

theorem read_secure_eq (env : Env) (err : ErrH) (w : World) (sock secure fd en dr ssl conf : Nat)
    (len : Nat) (h : SecureHandle w sock secure fd en dr ssl conf) :
    dslink_socket_read env err w sock len =
      if env.ssl_read w.trace.length len < 0 then
        some (err.DSLINK_SOCK_READ_ERR,
          { w with errno := env.ssl_read w.trace.length len,
                   trace := w.trace ++ [Event.ssl_read ssl len] })
      else
        some (env.ssl_read w.trace.length len,
          { w with trace := w.trace ++ [Event.ssl_read ssl len] }) := by
  have h1 := h.tls
  have h2 := h.tag
  simp only [dslink_socket_read, h.record, Option.bind_eq_bind, Option.some_bind, Obj.secure,
    ne_eq, h2, not_false_eq_true, if_true, mbedtls_ssl_read, ctxUse, h1, World.log]

theorem write_secure_eq (env : Env) (err : ErrH) (w : World) (sock secure fd en dr ssl conf : Nat)
    (len : Nat) (h : SecureHandle w sock secure fd en dr ssl conf) :
    dslink_socket_write env err w sock len =
      if env.ssl_write w.trace.length len < 0 then
        some (err.DSLINK_SOCK_WRITE_ERR,
          { w with errno := env.ssl_write w.trace.length len,
                   trace := w.trace ++ [Event.ssl_write ssl len] })
      else
        some (env.ssl_write w.trace.length len,
          { w with trace := w.trace ++ [Event.ssl_write ssl len] }) := by
  have h1 := h.tls
  have h2 := h.tag
  simp only [dslink_socket_write, h.record, Option.bind_eq_bind, Option.some_bind, Obj.secure,
    ne_eq, h2, not_false_eq_true, if_true, mbedtls_ssl_write, ctxUse, h1, World.log]

theorem read_timeout_secure_eq (env : Env) (err : ErrH) (w : World)
    (sock secure fd en dr ssl conf : Nat) (len timeout : Nat)
    (h : SecureHandle w sock secure fd en dr ssl conf) :
    dslink_socket_read_timeout env err w sock len timeout =
      if env.ssl_read (w.trace.length + 1) len < 0 then
        some (err.DSLINK_SOCK_READ_ERR,
          { w with errno := env.ssl_read (w.trace.length + 1) len,
                   read_timeout := (conf, timeout) :: w.read_timeout,
                   trace := w.trace ++ [Event.ssl_conf_read_timeout conf timeout,
                     Event.ssl_read ssl len] })
      else
        some (env.ssl_read (w.trace.length + 1) len,
          { w with read_timeout := (conf, timeout) :: w.read_timeout,
                   trace := w.trace ++ [Event.ssl_conf_read_timeout conf timeout,
                     Event.ssl_read ssl len] }) := by
  have h1 := h.tls
  have h2 := h.tag
  have h3 := h.ssl_config
  simp only [dslink_socket_read_timeout, h.record, Option.bind_eq_bind, Option.some_bind,
    Obj.secure, ne_eq, h2, not_false_eq_true, if_true, mbedtls_ssl_conf_read_timeout,
    mbedtls_ssl_read, ctxUse, h1, h3, World.log, List.length_append, List.length_singleton,
    List.append_assoc, List.singleton_append]

theorem read_plain_eq (env : Env) (err : ErrH) (w : World) (sock fd : Nat) (len : Nat)
    (h : PlainHandle w sock fd) (hr : (Ctx.net, fd) ∈ w.ready) :
    dslink_socket_read env err w sock len =
      if env.net_recv w.trace.length len < 0 then
        some (err.DSLINK_SOCK_READ_ERR,
          { w with errno := env.net_recv w.trace.length len,
                   trace := w.trace ++ [Event.net_recv fd len] })
      else
        some (env.net_recv w.trace.length len,
          { w with trace := w.trace ++ [Event.net_recv fd len] }) := by
  simp only [dslink_socket_read, h.record, Option.bind_eq_bind, Option.some_bind, Obj.secure,
    Obj.socket_fd, ne_eq, not_true_eq_false, if_false, mbedtls_net_recv, ctxUse, hr, if_true,
    World.log]

theorem write_plain_eq (env : Env) (err : ErrH) (w : World) (sock fd : Nat) (len : Nat)
    (h : PlainHandle w sock fd) (hr : (Ctx.net, fd) ∈ w.ready) :
    dslink_socket_write env err w sock len =
      if env.net_send w.trace.length len < 0 then
        some (err.DSLINK_SOCK_WRITE_ERR,
          { w with errno := env.net_send w.trace.length len,
                   trace := w.trace ++ [Event.net_send fd len] })
      else
        some (env.net_send w.trace.length len,
          { w with trace := w.trace ++ [Event.net_send fd len] }) := by
  simp only [dslink_socket_write, h.record, Option.bind_eq_bind, Option.some_bind, Obj.secure,
    Obj.socket_fd, ne_eq, not_true_eq_false, if_false, mbedtls_net_send, ctxUse, hr, if_true,
    World.log]

theorem read_timeout_plain_eq (env : Env) (err : ErrH) (w : World) (sock fd : Nat)
    (len timeout : Nat) (h : PlainHandle w sock fd) (hr : (Ctx.net, fd) ∈ w.ready) :
    dslink_socket_read_timeout env err w sock len timeout =
      if env.net_recv_timeout w.trace.length len timeout < 0 then
        some (err.DSLINK_SOCK_READ_ERR,
          { w with errno := env.net_recv_timeout w.trace.length len timeout,
                   trace := w.trace ++ [Event.net_recv_timeout fd len timeout] })
      else
        some (env.net_recv_timeout w.trace.length len timeout,
          { w with trace := w.trace ++ [Event.net_recv_timeout fd len timeout] }) := by
  simp only [dslink_socket_read_timeout, h.record, Option.bind_eq_bind, Option.some_bind,
    Obj.secure, Obj.socket_fd, ne_eq, not_true_eq_false, if_false, mbedtls_net_recv_timeout,
    ctxUse, hr, if_true, World.log]

theorem runOps_secure (env : Env) (err : ErrH) (sock secure fd en dr ssl conf : Nat)
    (ops : List Op) : ∀ w : World, SecureHandle w sock secure fd en dr ssl conf →
      ∃ w2, runOps env err sock w ops = some w2 ∧ w2.read_timeout = w.read_timeout ∧
        SecureHandle w2 sock secure fd en dr ssl conf := by
  induction ops with
  | nil =>
    intro w h
    exact ⟨w, rfl, rfl, h⟩
  | cons op ops ih =>
    intro w h
    cases op with
    | read len =>
      simp only [runOps, read_secure_eq env err w sock secure fd en dr ssl conf len h]
      split <;> exact ih _ (h.frame rfl rfl rfl)
    | write len =>
      simp only [runOps, write_secure_eq env err w sock secure fd en dr ssl conf len h]
      split <;> exact ih _ (h.frame rfl rfl rfl)

theorem samplePlain_handle : PlainHandle samplePlain 1 2 := by
  constructor <;> decide

/-! ## The claims -/

/-- C1: when every step before the handshake succeeds and the handshake step
answers "want read" on its first `N` invocations and `0` on invocation `N + 1`,
`dslink_socket_connect_secure` returns `0` (for every step budget above `N`)
and has invoked the handshake step exactly `N + 1` times: the trace ends in
`N + 1` handshake calls and the step counter advanced by `N + 1`. -/
theorem connect_secure_retry_then_success (env : Env) (err : ErrH) (fuel : Nat) (w : World)
    (sock secure fd en dr ssl conf : Nat) (address : String) (port : Nat) (N : Nat)
    (h : SecureHandle w sock secure fd en dr ssl conf)
    (hseed : env.ctr_drbg_seed = 0) (hnet : env.net_connect = 0)
    (hdef : env.ssl_config_defaults = 0) (hsetup : env.ssl_setup = 0)
    (hhost : env.ssl_set_hostname = 0)
    (hretry : ∀ i, i < N → env.ssl_handshake (w.handshakes + i) = MBEDTLS_ERR_SSL_WANT_READ)
    (hdone : env.ssl_handshake (w.handshakes + N) = 0)
    (hfuel : N < fuel) :
    dslink_socket_connect_secure env err fuel w sock address port =
      some (0, w.afterConnect fd en dr ssl conf address port (N + 1) 0) := by
  rw [connect_secure_eq env err fuel w sock secure fd en dr ssl conf address port h]
  simp only [hseed, hnet, hdef, hsetup, hhost, ne_eq, not_true_eq_false, if_false]
  rw [handshake_loop_stops env err ssl fuel N
    { w with errno := 0, trace := w.trace ++ connectSteps fd en dr ssl conf address port }
    h.tls hfuel (fun i hi => Or.inl (hretry i hi)) (by show ¬ isRetry _; rw [hdone]; decide)]
  simp [hdone, World.afterConnect, World.afterHandshakes]

theorem connect_secure_retry_then_success_witness :
    dslink_socket_connect_secure { Env.quiet with ssl_handshake := stepper 2 0 } sampleErr 3
        sampleSecure 1 "broker" 443 =
      some (0, sampleSecure.afterConnect 2 3 4 5 6 "broker" 443 (2 + 1) 0) :=
  connect_secure_retry_then_success { Env.quiet with ssl_handshake := stepper 2 0 } sampleErr 3
    sampleSecure 1 1 2 3 4 5 6 "broker" 443 2 sampleSecure_handle rfl rfl rfl rfl rfl
    (by decide) (by decide) (by decide)

/-- C2: when every step before the handshake succeeds and the first handshake
result that is not a retry signal (it comes after `k` retry results) is
non-zero, `dslink_socket_connect_secure` returns the handshake error code
(for every step budget above `k`), the handshake step has been invoked `k + 1`
times and no more, and nothing was released: no call of `free` or of an
mbedtls free routine was made, the allocated blocks are the same, and the
handle is still a complete secure handle. -/
theorem connect_secure_fatal_handshake (env : Env) (err : ErrH) (fuel : Nat) (w : World)
    (sock secure fd en dr ssl conf : Nat) (address : String) (port : Nat) (k : Nat)
    (h : SecureHandle w sock secure fd en dr ssl conf)
    (hseed : env.ctr_drbg_seed = 0) (hnet : env.net_connect = 0)
    (hdef : env.ssl_config_defaults = 0) (hsetup : env.ssl_setup = 0)
    (hhost : env.ssl_set_hostname = 0)
    (hretry : ∀ i, i < k → isRetry (env.ssl_handshake (w.handshakes + i)))
    (hstop : ¬ isRetry (env.ssl_handshake (w.handshakes + k)))
    (hfatal : env.ssl_handshake (w.handshakes + k) ≠ 0)
    (hfuel : k < fuel) :
    dslink_socket_connect_secure env err fuel w sock address port =
        some (err.DSLINK_SOCK_SSL_HANDSHAKE_ERR,
          w.afterConnect fd en dr ssl conf address port (k + 1)
            (env.ssl_handshake (w.handshakes + k))) ∧
      (∀ e ∈ connectSteps fd en dr ssl conf address port ++
          List.replicate (k + 1) (Event.ssl_handshake ssl), e.isRelease = false) ∧
      (w.afterConnect fd en dr ssl conf address port (k + 1)
          (env.ssl_handshake (w.handshakes + k))).live = w.live ∧
      SecureHandle (w.afterConnect fd en dr ssl conf address port (k + 1)
          (env.ssl_handshake (w.handshakes + k))) sock secure fd en dr ssl conf := by
  refine ⟨?_, ?_, rfl, h.frame rfl rfl rfl⟩
  · rw [connect_secure_eq env err fuel w sock secure fd en dr ssl conf address port h]
    simp only [hseed, hnet, hdef, hsetup, hhost, ne_eq, not_true_eq_false, if_false]
    rw [handshake_loop_stops env err ssl fuel k
      { w with errno := 0, trace := w.trace ++ connectSteps fd en dr ssl conf address port }
      h.tls hfuel hretry hstop]
    simp [hfatal, World.afterConnect, World.afterHandshakes]
  · intro e he
    rcases List.mem_append.mp he with he | he
    · simp only [connectSteps, List.mem_cons, List.mem_singleton, List.not_mem_nil,
        or_false] at he
      rcases he with rfl | rfl | rfl | rfl | rfl | rfl | rfl | rfl <;> rfl
    · rw [List.eq_of_mem_replicate he]
      rfl

theorem connect_secure_fatal_handshake_witness :
    dslink_socket_connect_secure { Env.quiet with ssl_handshake := stepper 1 (-29312) } sampleErr 2
          sampleSecure 1 "broker" 443 =
        some (-7, sampleSecure.afterConnect 2 3 4 5 6 "broker" 443 (1 + 1) (-29312)) ∧
      (∀ e ∈ connectSteps 2 3 4 5 6 "broker" 443 ++
          List.replicate (1 + 1) (Event.ssl_handshake 5), e.isRelease = false) ∧
      (sampleSecure.afterConnect 2 3 4 5 6 "broker" 443 (1 + 1) (-29312)).live = [6, 5, 4, 3, 2, 1] ∧
      SecureHandle (sampleSecure.afterConnect 2 3 4 5 6 "broker" 443 (1 + 1) (-29312))
        1 1 2 3 4 5 6 :=
  connect_secure_fatal_handshake { Env.quiet with ssl_handshake := stepper 1 (-29312) } sampleErr 2
    sampleSecure 1 1 2 3 4 5 6 "broker" 443 1 sampleSecure_handle rfl rfl rfl rfl rfl
    (by decide) (by decide) (by decide) (by decide)

/-- C3: when `dslink_socket_connect` is asked for a secure handle and at least
one of the five sub-resource allocations (the calls of `malloc` after the
first) fails, it returns `DSLINK_ALLOC_ERR` and stores no handle, and every
block the call allocated has been released exactly once: the blocks passed to
`free` are the allocated blocks, none twice, the base record (the block at
`w.brk + 1` when its allocation succeeded) is among them, and the set of
allocated blocks is what it was before the call. -/
theorem connect_secure_alloc_failure (env : Env) (err : ErrH) (fuel : Nat) (w : World)
    (address : String) (port : Nat) (secure : Nat) (hsec : secure ≠ 0)
    (h : ¬ (env.malloc_ok (w.mallocs + 1) = true ∧ env.malloc_ok (w.mallocs + 2) = true ∧
        env.malloc_ok (w.mallocs + 3) = true ∧ env.malloc_ok (w.mallocs + 4) = true ∧
        env.malloc_ok (w.mallocs + 5) = true)) :
    ∃ w1 d, dslink_socket_connect env err fuel w address port secure =
        some (err.DSLINK_ALLOC_ERR, 0, w1) ∧
      w1.trace = w.trace ++ d ∧ w1.live = w.live ∧
      (allocated d).Nodup ∧ (released d).Perm (allocated d) ∧
      (env.malloc_ok w.mallocs = true → w.brk + 1 ∈ released d) := by
  obtain ⟨w1, d, h1, h2, h3, h4, h5, h6, -⟩ :=
    init_secure_alloc_fail env w secure hsec (fun hc => h hc.2)
  exact ⟨w1, d, by simp [dslink_socket_connect, h1], h2, h3, h4, h5, h6⟩

theorem connect_secure_alloc_failure_witness :
    ∃ w1 d, dslink_socket_connect { Env.quiet with malloc_ok := fun n => n != 3 } sampleErr 0
          World.boot "broker" 443 1 = some (-1, 0, w1) ∧
      w1.trace = World.boot.trace ++ d ∧ w1.live = World.boot.live ∧
      (allocated d).Nodup ∧ (released d).Perm (allocated d) ∧
      ((fun n => n != 3) World.boot.mallocs = true → World.boot.brk + 1 ∈ released d) :=
  connect_secure_alloc_failure { Env.quiet with malloc_ok := fun n => n != 3 } sampleErr 0
    World.boot "broker" 443 1 (by decide) (by decide)

/-- C4, as the code has it: on a complete secure handle `dslink_socket_close`
first attempts the TLS close-notify, then calls the mbedtls free routines of
the entropy source, the random generator, the TLS engine and the TLS
configuration, in this order, and only then releases their storage, in the
same order; after that it frees the transport context, releases the storage
of the transport and last the storage of the handle. -/
theorem close_secure_order (w : World) (sock secure fd en dr ssl conf : Nat)
    (h : SecureHandle w sock secure fd en dr ssl conf) :
    (dslink_socket_close w sock).map World.trace =
      some (w.trace ++
        [Event.ssl_close_notify ssl,
         Event.ctx_free Ctx.entropy en,
         Event.ctx_free Ctx.ctr_drbg dr,
         Event.ctx_free Ctx.ssl ssl,
         Event.ctx_free Ctx.ssl_config conf,
         Event.free en,
         Event.free dr,
         Event.free ssl,
         Event.free conf,
         Event.ctx_free Ctx.net fd,
         Event.free fd,
         Event.free sock]) := by
  rw [close_secure_eq w sock secure fd en dr ssl conf h]
  rfl

theorem close_secure_order_witness :
    (dslink_socket_close sampleSecure 1).map World.trace =
      some (sampleSecure.trace ++
        [Event.ssl_close_notify 5,
         Event.ctx_free Ctx.entropy 3,
         Event.ctx_free Ctx.ctr_drbg 4,
         Event.ctx_free Ctx.ssl 5,
         Event.ctx_free Ctx.ssl_config 6,
         Event.free 3,
         Event.free 4,
         Event.free 5,
         Event.free 6,
         Event.ctx_free Ctx.net 2,
         Event.free 2,
         Event.free 1]) :=
  close_secure_order sampleSecure 1 1 2 3 4 5 6 sampleSecure_handle

/-- C4 as stated fails: closing the secure handle of `sampleSecure` frees the
entropy context (block 3) and the random generator (block 4) before the TLS
engine (block 5) and the TLS configuration (block 6), and releases no storage
until all four contexts have been freed.  Even without the call of
`mbedtls_net_free`, which the claim leaves out, the calls are not in the order
the claim gives: the entropy context is freed before the TLS engine, and the
TLS configuration is freed before the storage of the TLS engine is released. -/
theorem close_order_counterexample :
    (dslink_socket_close sampleSecure 1).map (fun w1 => w1.trace.drop sampleSecure.trace.length) =
        some [Event.ssl_close_notify 5,
              Event.ctx_free Ctx.entropy 3,
              Event.ctx_free Ctx.ctr_drbg 4,
              Event.ctx_free Ctx.ssl 5,
              Event.ctx_free Ctx.ssl_config 6,
              Event.free 3,
              Event.free 4,
              Event.free 5,
              Event.free 6,
              Event.ctx_free Ctx.net 2,
              Event.free 2,
              Event.free 1] ∧
      (closeSteps 1 2 3 4 5 6).filter (fun e => e ≠ Event.ctx_free Ctx.net 2) ≠
        specCloseOrder 1 2 3 4 5 6 ∧
      (closeSteps 1 2 3 4 5 6).indexOf (Event.ctx_free Ctx.entropy 3) <
        (closeSteps 1 2 3 4 5 6).indexOf (Event.ctx_free Ctx.ssl 5) ∧
      (closeSteps 1 2 3 4 5 6).indexOf (Event.ctx_free Ctx.ssl_config 6) <
        (closeSteps 1 2 3 4 5 6).indexOf (Event.free 5) := by
  refine ⟨rfl, ?_, ?_, ?_⟩ <;> decide

/-- C5, as the code has it: `dslink_socket_read` with length `0` makes the same
single call as for any other length, `mbedtls_ssl_read` on a secure handle and
`mbedtls_net_recv` on a plain one, each with length `0`; it returns the answer
`r` of that call when `0 ≤ r` (so `0` exactly when the call answers `0`) and
`DSLINK_SOCK_READ_ERR` when `r < 0`. -/
theorem read_zero_length (env : Env) (err : ErrH) (w : World) (sock : Ptr) :
    (∀ secure fd en dr ssl conf, SecureHandle w sock secure fd en dr ssl conf →
      (0 ≤ env.ssl_read w.trace.length 0 →
        dslink_socket_read env err w sock 0 =
          some (env.ssl_read w.trace.length 0,
            { w with trace := w.trace ++ [Event.ssl_read ssl 0] })) ∧
      (env.ssl_read w.trace.length 0 < 0 →
        dslink_socket_read env err w sock 0 =
          some (err.DSLINK_SOCK_READ_ERR,
            { w with errno := env.ssl_read w.trace.length 0,
                     trace := w.trace ++ [Event.ssl_read ssl 0] }))) ∧
    (∀ fd, PlainHandle w sock fd → (Ctx.net, fd) ∈ w.ready →
      (0 ≤ env.net_recv w.trace.length 0 →
        dslink_socket_read env err w sock 0 =
          some (env.net_recv w.trace.length 0,
            { w with trace := w.trace ++ [Event.net_recv fd 0] })) ∧
      (env.net_recv w.trace.length 0 < 0 →
        dslink_socket_read env err w sock 0 =
          some (err.DSLINK_SOCK_READ_ERR,
            { w with errno := env.net_recv w.trace.length 0,
                     trace := w.trace ++ [Event.net_recv fd 0] }))) := by
  refine ⟨?_, ?_⟩
  · intro secure fd en dr ssl conf h
    rw [read_secure_eq env err w sock secure fd en dr ssl conf 0 h]
    exact ⟨fun hr => by rw [if_neg (not_lt.mpr hr)], fun hr => by rw [if_pos hr]⟩
  · intro fd h hr
    rw [read_plain_eq env err w sock fd 0 h hr]
    exact ⟨fun hr => by rw [if_neg (not_lt.mpr hr)], fun hr => by rw [if_pos hr]⟩

theorem read_zero_length_witness :
    dslink_socket_read Env.quiet sampleErr sampleSecure 1 0 =
      some (0, { sampleSecure with trace := sampleSecure.trace ++ [Event.ssl_read 5 0] }) :=
  ((read_zero_length Env.quiet sampleErr sampleSecure 1).1 1 2 3 4 5 6 sampleSecure_handle).1
    (by decide)

/-- C5 as stated fails: on the secure handle of `sampleSecure`, with a TLS
engine that has no record to hand out and answers `MBEDTLS_ERR_SSL_WANT_READ`,
`dslink_socket_read` with length `0` calls `mbedtls_ssl_read` and returns the
read error code, not `0`. -/
theorem read_zero_length_counterexample :
    dslink_socket_read { Env.quiet with ssl_read := fun _ _ => MBEDTLS_ERR_SSL_WANT_READ }
        sampleErr sampleSecure 1 0 =
      some (sampleErr.DSLINK_SOCK_READ_ERR,
        { sampleSecure with errno := -26880,
                            trace := sampleSecure.trace ++ [Event.ssl_read 5 0] }) ∧
      sampleErr.DSLINK_SOCK_READ_ERR ≠ 0 := by
  refine ⟨rfl, ?_⟩
  decide

/-- C7: on a complete secure handle `dslink_socket_connect_secure` makes its
mbedtls calls in the order of `connectSteps` (seed, open transport, config
defaults, engine setup, peer identity, then the handshake), stops at the first
step that answers non-zero, returns that step's error code and makes no later
call: the trace grows by exactly the calls up to and including the failing
one.  A seed failure therefore never opens the transport, a transport failure
never starts the handshake, and the handshake is only entered, after all of
`connectSteps`, when every earlier step answered `0`; the call then returns
once the stepper stops asking for retries within the step budget, with `0` or
the handshake error code. -/
theorem connect_secure_first_failure (env : Env) (err : ErrH) (fuel : Nat) (w : World)
    (sock secure fd en dr ssl conf : Nat) (address : String) (port : Nat)
    (h : SecureHandle w sock secure fd en dr ssl conf) :
    (env.ctr_drbg_seed ≠ 0 →
      dslink_socket_connect_secure env err fuel w sock address port =
        some (err.DSLINK_CRYPT_ENTROPY_SEED_ERR,
          { w with errno := env.ctr_drbg_seed,
                   trace := w.trace ++ [Event.ctr_drbg_seed dr en] })) ∧
    (env.ctr_drbg_seed = 0 → env.net_connect ≠ 0 →
      dslink_socket_connect_secure env err fuel w sock address port =
        some (err.DSLINK_SOCK_CONNECT_ERR,
          { w with errno := env.net_connect,
                   trace := w.trace ++ [Event.ctr_drbg_seed dr en,
                     Event.net_connect fd address port] })) ∧
    (env.ctr_drbg_seed = 0 → env.net_connect = 0 → env.ssl_config_defaults ≠ 0 →
      dslink_socket_connect_secure env err fuel w sock address port =
        some (err.DSLINK_SOCK_SSL_CONFIG_ERR,
          { w with errno := env.ssl_config_defaults,
                   trace := w.trace ++ [Event.ctr_drbg_seed dr en,
                     Event.net_connect fd address port, Event.ssl_config_defaults conf] })) ∧
    (env.ctr_drbg_seed = 0 → env.net_connect = 0 → env.ssl_config_defaults = 0 →
        env.ssl_setup ≠ 0 →
      dslink_socket_connect_secure env err fuel w sock address port =
        some (err.DSLINK_SOCK_SSL_SETUP_ERR,
          { w with errno := env.ssl_setup,
                   trace := w.trace ++ [Event.ctr_drbg_seed dr en,
                     Event.net_connect fd address port, Event.ssl_config_defaults conf,
                     Event.ssl_conf_authmode conf, Event.ssl_conf_rng conf dr,
                     Event.ssl_setup ssl conf] })) ∧
    (env.ctr_drbg_seed = 0 → env.net_connect = 0 → env.ssl_config_defaults = 0 →
        env.ssl_setup = 0 → env.ssl_set_hostname ≠ 0 →
      dslink_socket_connect_secure env err fuel w sock address port =
        some (err.DSLINK_SOCK_SSL_HOSTNAME_SET_ERR,
          { w with errno := env.ssl_set_hostname,
                   trace := w.trace ++ [Event.ctr_drbg_seed dr en,
                     Event.net_connect fd address port, Event.ssl_config_defaults conf,
                     Event.ssl_conf_authmode conf, Event.ssl_conf_rng conf dr,
                     Event.ssl_setup ssl conf, Event.ssl_set_hostname ssl "_"] })) ∧
    (env.ctr_drbg_seed = 0 → env.net_connect = 0 → env.ssl_config_defaults = 0 →
        env.ssl_setup = 0 → env.ssl_set_hostname = 0 →
      ((∃ k, k < fuel ∧ ¬ isRetry (env.ssl_handshake (w.handshakes + k))) →
        ∃ r, dslink_socket_connect_secure env err fuel w sock address port = some r) ∧
      ∀ rc w1, dslink_socket_connect_secure env err fuel w sock address port = some (rc, w1) →
        ∃ n, w1.trace = w.trace ++ connectSteps fd en dr ssl conf address port ++
            List.replicate (n + 1) (Event.ssl_handshake ssl) ∧
          (rc = 0 ∨ rc = err.DSLINK_SOCK_SSL_HANDSHAKE_ERR)) := by
  have key := connect_secure_eq env err fuel w sock secure fd en dr ssl conf address port h
  refine ⟨?_, ?_, ?_, ?_, ?_, ?_⟩
  · intro c1
    rw [key]
    simp [c1, connectSteps]
  · intro c1 c2
    rw [key]
    simp [c1, c2, connectSteps]
  · intro c1 c2 c3
    rw [key]
    simp [c1, c2, c3, connectSteps]
  · intro c1 c2 c3 c4
    rw [key]
    simp [c1, c2, c3, c4, connectSteps]
  · intro c1 c2 c3 c4 c5
    rw [key]
    simp [c1, c2, c3, c4, c5, connectSteps]
  · intro c1 c2 c3 c4 c5
    refine ⟨connect_secure_returns env err fuel w sock secure fd en dr ssl conf address port h,
      ?_⟩
    intro rc w1 hres
    rw [key] at hres
    simp only [c1, c2, c3, c4, c5, ne_eq, not_true_eq_false, if_false] at hres
    obtain ⟨n, e1, -, -, -, -, -, -, -, e9⟩ := handshake_loop_frame env err ssl fuel _ rc w1 hres
    exact ⟨n, by simpa [List.append_assoc] using e1, e9⟩

theorem connect_secure_first_failure_witness :
    dslink_socket_connect_secure { Env.quiet with net_connect := -68 } sampleErr 0
        sampleSecure 1 "broker" 443 =
      some (-3,
        { sampleSecure with
            errno := -68,
            trace := sampleSecure.trace ++ [Event.ctr_drbg_seed 4 3,
              Event.net_connect 2 "broker" 443] }) :=
  (connect_secure_first_failure { Env.quiet with net_connect := -68 } sampleErr 0
    sampleSecure 1 1 2 3 4 5 6 "broker" 443 sampleSecure_handle).2.1 rfl (by decide)

/-- C8: on a complete secure handle `dslink_socket_read_timeout` with timeout
`t` stores `t` in the handle's TLS configuration before it performs the TLS
read (the setter is the call just before the read in the trace), and after
any sequence of `dslink_socket_read` and `dslink_socket_write` calls on that
handle the stored timeout is still `t`.  On a plain handle the timed read
leaves the record, every stored timeout, the allocated blocks and the
initialised contexts as they were. -/
theorem read_timeout_sticky (env : Env) (err : ErrH) (w : World) (sock : Ptr) (len t : Nat) :
    (∀ secure fd en dr ssl conf, SecureHandle w sock secure fd en dr ssl conf →
      ∃ rc w1, dslink_socket_read_timeout env err w sock len t = some (rc, w1) ∧
        w1.timeoutOf conf = some t ∧
        w1.trace = w.trace ++ [Event.ssl_conf_read_timeout conf t, Event.ssl_read ssl len] ∧
        ∀ ops, ∃ w2, runOps env err sock w1 ops = some w2 ∧ w2.timeoutOf conf = some t) ∧
    (∀ fd, PlainHandle w sock fd → (Ctx.net, fd) ∈ w.ready →
      ∃ rc w1, dslink_socket_read_timeout env err w sock len t = some (rc, w1) ∧
        w1.deref sock = w.deref sock ∧ w1.socks = w.socks ∧
        w1.read_timeout = w.read_timeout ∧ w1.live = w.live ∧ w1.ready = w.ready) := by
  refine ⟨?_, ?_⟩
  · intro secure fd en dr ssl conf h
    have key : ∀ w1 : World, w1.live = w.live → w1.socks = w.socks → w1.ready = w.ready →
        w1.read_timeout = (conf, t) :: w.read_timeout →
        ∀ ops, ∃ w2, runOps env err sock w1 ops = some w2 ∧ w2.timeoutOf conf = some t := by
      intro w1 hl hs hr ht ops
      obtain ⟨w2, e1, e2, -⟩ :=
        runOps_secure env err sock secure fd en dr ssl conf ops w1 (h.frame hl hs hr)
      exact ⟨w2, e1, by simp [World.timeoutOf, e2, ht, List.lookup]⟩
    rw [read_timeout_secure_eq env err w sock secure fd en dr ssl conf len t h]
    split
    · exact ⟨_, _, rfl, by simp [World.timeoutOf, List.lookup], rfl, key _ rfl rfl rfl rfl⟩
    · exact ⟨_, _, rfl, by simp [World.timeoutOf, List.lookup], rfl, key _ rfl rfl rfl rfl⟩
  · intro fd h hr
    rw [read_timeout_plain_eq env err w sock fd len t h hr]
    split
    · exact ⟨_, _, rfl, rfl, rfl, rfl, rfl, rfl⟩
    · exact ⟨_, _, rfl, rfl, rfl, rfl, rfl, rfl⟩

theorem read_timeout_sticky_witness :
    ∃ rc w1, dslink_socket_read_timeout Env.quiet sampleErr sampleSecure 1 16 5000 =
        some (rc, w1) ∧
      w1.timeoutOf 6 = some 5000 ∧
      w1.trace = sampleSecure.trace ++ [Event.ssl_conf_read_timeout 6 5000, Event.ssl_read 5 16] ∧
      ∀ ops, ∃ w2, runOps Env.quiet sampleErr 1 w1 ops = some w2 ∧ w2.timeoutOf 6 = some 5000 :=
  (read_timeout_sticky Env.quiet sampleErr sampleSecure 1 16 5000).1 1 2 3 4 5 6
    sampleSecure_handle

/-- C9: each of `dslink_socket_read`, `dslink_socket_read_timeout` and
`dslink_socket_write` makes exactly one transfer call, once: the TLS engine's
read or write on a secure handle, the transport's receive or send on a plain
one (the timed read on a secure handle stores the timeout first).
With `r` the answer of that call, the function returns `r` unchanged when
`0 ≤ r`, whatever `len` is, and its fixed error code when `r < 0`:
`DSLINK_SOCK_READ_ERR` for the two reads, `DSLINK_SOCK_WRITE_ERR` for write. -/
theorem transfer_dispatch (env : Env) (err : ErrH) (w : World) (sock : Ptr) (len t : Nat) :
    (∀ secure fd en dr ssl conf, SecureHandle w sock secure fd en dr ssl conf →
      dslink_socket_read env err w sock len =
        (if env.ssl_read w.trace.length len < 0 then
          some (err.DSLINK_SOCK_READ_ERR,
            { w with errno := env.ssl_read w.trace.length len,
                     trace := w.trace ++ [Event.ssl_read ssl len] })
        else
          some (env.ssl_read w.trace.length len,
            { w with trace := w.trace ++ [Event.ssl_read ssl len] })) ∧
      dslink_socket_read_timeout env err w sock len t =
        (if env.ssl_read (w.trace.length + 1) len < 0 then
          some (err.DSLINK_SOCK_READ_ERR,
            { w with errno := env.ssl_read (w.trace.length + 1) len,
                     read_timeout := (conf, t) :: w.read_timeout,
                     trace := w.trace ++ [Event.ssl_conf_read_timeout conf t,
                       Event.ssl_read ssl len] })
        else
          some (env.ssl_read (w.trace.length + 1) len,
            { w with read_timeout := (conf, t) :: w.read_timeout,
                     trace := w.trace ++ [Event.ssl_conf_read_timeout conf t,
                       Event.ssl_read ssl len] })) ∧
      dslink_socket_write env err w sock len =
        (if env.ssl_write w.trace.length len < 0 then
          some (err.DSLINK_SOCK_WRITE_ERR,
            { w with errno := env.ssl_write w.trace.length len,
                     trace := w.trace ++ [Event.ssl_write ssl len] })
        else
          some (env.ssl_write w.trace.length len,
            { w with trace := w.trace ++ [Event.ssl_write ssl len] }))) ∧
    (∀ fd, PlainHandle w sock fd → (Ctx.net, fd) ∈ w.ready →
      dslink_socket_read env err w sock len =
        (if env.net_recv w.trace.length len < 0 then
          some (err.DSLINK_SOCK_READ_ERR,
            { w with errno := env.net_recv w.trace.length len,
                     trace := w.trace ++ [Event.net_recv fd len] })
        else
          some (env.net_recv w.trace.length len,
            { w with trace := w.trace ++ [Event.net_recv fd len] })) ∧
      dslink_socket_read_timeout env err w sock len t =
        (if env.net_recv_timeout w.trace.length len t < 0 then
          some (err.DSLINK_SOCK_READ_ERR,
            { w with errno := env.net_recv_timeout w.trace.length len t,
                     trace := w.trace ++ [Event.net_recv_timeout fd len t] })
        else
          some (env.net_recv_timeout w.trace.length len t,
            { w with trace := w.trace ++ [Event.net_recv_timeout fd len t] })) ∧
      dslink_socket_write env err w sock len =
        (if env.net_send w.trace.length len < 0 then
          some (err.DSLINK_SOCK_WRITE_ERR,
            { w with errno := env.net_send w.trace.length len,
                     trace := w.trace ++ [Event.net_send fd len] })
        else
          some (env.net_send w.trace.length len,
            { w with trace := w.trace ++ [Event.net_send fd len] }))) := by
  refine ⟨?_, ?_⟩
  · intro secure fd en dr ssl conf h
    exact ⟨read_secure_eq env err w sock secure fd en dr ssl conf len h,
      read_timeout_secure_eq env err w sock secure fd en dr ssl conf len t h,
      write_secure_eq env err w sock secure fd en dr ssl conf len h⟩
  · intro fd h hr
    exact ⟨read_plain_eq env err w sock fd len h hr,
      read_timeout_plain_eq env err w sock fd len t h hr,
      write_plain_eq env err w sock fd len h hr⟩

theorem transfer_dispatch_witness :
    dslink_socket_write { Env.quiet with net_send := fun _ _ => 3 } sampleErr samplePlain 1 10 =
      (if (3 : Int) < 0 then
        some (sampleErr.DSLINK_SOCK_WRITE_ERR,
          { samplePlain with errno := 3, trace := samplePlain.trace ++ [Event.net_send 2 10] })
      else
        some (3, { samplePlain with trace := samplePlain.trace ++ [Event.net_send 2 10] })) :=
  ((transfer_dispatch { Env.quiet with net_send := fun _ _ => 3 } sampleErr samplePlain 1 10 0).2 2
    samplePlain_handle (by decide)).2.2

/-- C10: `dslink_socket_connect` returns once the handshake stepper stops asking
for retries within the step budget (and always when it stops before the
handshake).  Whatever it returned, for either variant and at whatever stage it
stopped, one call of `dslink_socket_close` on the handle it stored is defined
(no block is released that is not allocated); on a null handle it changes
nothing; over connect and close together every allocated block is released
exactly once, leaving allocated exactly the blocks that were allocated before
the connect; and every mbedtls free routine in their joint trace acts on a
context that an init routine of the same connect prepared before. -/
theorem close_after_connect (env : Env) (err : ErrH) (fuel : Nat) (w : World)
    (address : String) (port : Nat) (secure : Nat) :
    ((∃ k, k < fuel ∧ ¬ isRetry (env.ssl_handshake (w.handshakes + k))) →
      ∃ r, dslink_socket_connect env err fuel w address port secure = some r) ∧
    ∀ (rc : Int) (sock : Ptr) (w1 : World),
      dslink_socket_connect env err fuel w address port secure = some (rc, sock, w1) →
      ∃ w2 d, dslink_socket_close w1 sock = some w2 ∧ (sock = 0 → w2 = w1) ∧
        w2.live = w.live ∧ w2.trace = w.trace ++ d ∧
        (allocated d).Nodup ∧ (released d).Perm (allocated d) ∧
        initBeforeFree [] d = true := by
  refine ⟨connect_returns env err fuel w address port secure, ?_⟩
  intro rc sock w1 hc
  by_cases hsec : secure = 0
  · subst hsec
    by_cases hm : env.malloc_ok w.mallocs = true ∧ env.malloc_ok (w.mallocs + 1) = true
    · rw [connect_plain_eq env err fuel w address port hm.1 hm.2] at hc
      simp only [Option.some.injEq, Prod.mk.injEq] at hc
      obtain ⟨-, rfl, rfl⟩ := hc
      refine ⟨_, [Event.malloc (w.brk + 1), Event.malloc (w.brk + 2),
          Event.ctx_init Ctx.net (w.brk + 2), Event.net_connect (w.brk + 2) address port,
          Event.ctx_free Ctx.net (w.brk + 2), Event.free (w.brk + 2), Event.free (w.brk + 1)],
        close_plain_eq _ (w.brk + 1) (w.brk + 2) ?_ ?_, ?_, ?_, ?_, ?_, ?_, ?_⟩
      · constructor <;> simp [World.withPlain, World.deref, List.lookup]
      · simp
      · intro h0
        simp at h0
      · simp [World.drop, World.withPlain]
      · simp [World.withPlain]
      · simp [allocated]
      · simp only [allocated, released, List.cons_append, List.nil_append, List.filterMap_cons,
          Nat.add_eq_zero, one_ne_zero, and_false, if_false, List.filterMap_nil,
          OfNat.ofNat_ne_zero]
        exact List.Perm.swap _ _ _
      · simp [initBeforeFree]
    · obtain ⟨wf, d, h1, h2, h3, h4, h5, h6⟩ := init_plain_fail env w hm
      simp only [dslink_socket_connect, h1, Option.bind_eq_bind, Option.some_bind, if_true,
        Option.some.injEq, Prod.mk.injEq] at hc
      obtain ⟨-, rfl, rfl⟩ := hc
      exact ⟨wf, d, by simp [dslink_socket_close], fun _ => rfl, h3, h2, h4, h5,
        initBeforeFree_of_no_ctx_free d [] h6⟩
  · by_cases hm : env.malloc_ok w.mallocs = true ∧ env.malloc_ok (w.mallocs + 1) = true ∧
        env.malloc_ok (w.mallocs + 2) = true ∧ env.malloc_ok (w.mallocs + 3) = true ∧
        env.malloc_ok (w.mallocs + 4) = true ∧ env.malloc_ok (w.mallocs + 5) = true
    · obtain ⟨m0, m1, m2, m3, m4, m5⟩ := hm
      simp only [dslink_socket_connect, init_secure_ok env w secure hsec m0 m1 m2 m3 m4 m5,
        Option.bind_eq_bind, Option.some_bind, Nat.add_eq_zero, one_ne_zero, and_false,
        if_false, ne_eq, hsec, not_false_eq_true, if_true, Option.bind_eq_some,
        Option.some.injEq, Prod.mk.injEq] at hc
      obtain ⟨⟨r, wc⟩, hcs, -, rfl, rfl⟩ := hc
      have hh := withSecure_handle w
      obtain ⟨e1, e2, e3, d, e4, e7⟩ :=
        connect_secure_frame env err fuel _ _ _ _ _ _ _ _ address port hh r wc hcs
      have e5 := allocated_of_neutral d e7
      have e6 := released_of_neutral d e7
      have hh1 := hh.frame e1 e2 e3
      refine ⟨_, secureInitSteps w.brk ++ (d ++
          closeSteps (w.brk + 1) (w.brk + 2) (w.brk + 3) (w.brk + 4) (w.brk + 5) (w.brk + 6)),
        close_secure_eq _ _ _ _ _ _ _ _ hh1, ?_, ?_, ?_, ?_, ?_, ?_⟩
      · intro h0
        simp at h0
      · simp [World.drop, e1, World.withSecure]
      · simp [e4, World.withSecure]
      · simp only [allocated_append, e5]
        simp [allocated, closeSteps, secureInitSteps]
      · simp only [allocated_append, released_append, e5, e6]
        simp only [allocated, released, closeSteps, secureInitSteps, List.filterMap_cons, Nat.add_eq_zero,
          one_ne_zero, and_false, if_false, List.filterMap_nil, OfNat.ofNat_ne_zero,
          List.append_nil, List.nil_append]
        exact perm_close_order _ _ _ _ _ _
      · simp only [secureInitSteps, List.cons_append, List.nil_append, initBeforeFree]
        change initBeforeFree _ (d ++ closeSteps _ _ _ _ _ _) = true
        rw [initBeforeFree_append_neutral d _ _ e7]
        simp [closeSteps, initBeforeFree]
    · obtain ⟨wf, d, h1, h2, h3, h4, h5, -, h6⟩ := init_secure_alloc_fail env w secure hsec hm
      simp only [dslink_socket_connect, h1, Option.bind_eq_bind, Option.some_bind, if_true,
        Option.some.injEq, Prod.mk.injEq] at hc
      obtain ⟨-, rfl, rfl⟩ := hc
      exact ⟨wf, d, by simp [dslink_socket_close], fun _ => rfl, h3, h2, h4, h5,
        initBeforeFree_of_no_ctx_free d [] h6⟩

theorem close_after_connect_witness :
    ∃ w2 d, dslink_socket_close (sampleSecure.afterConnect 2 3 4 5 6 "broker" 443 1 (-29312)) 1 =
        some w2 ∧
      ((1 : Ptr) = 0 → w2 = sampleSecure.afterConnect 2 3 4 5 6 "broker" 443 1 (-29312)) ∧
      w2.live = World.boot.live ∧ w2.trace = World.boot.trace ++ d ∧
      (allocated d).Nodup ∧ (released d).Perm (allocated d) ∧
      initBeforeFree [] d = true :=
  (close_after_connect { Env.quiet with ssl_handshake := stepper 0 (-29312) } sampleErr 1
    World.boot "broker" 443 1).2 (-7) 1
    (sampleSecure.afterConnect 2 3 4 5 6 "broker" 443 1 (-29312)) rfl

end DSLink
